import Mathlib

/-!
Verification of the streaming upload/download engine of the storage client
library: the resumable-upload write streambuf (`CurlResumableStreambuf`),
the HTTP-backed resumable upload session (`CurlResumableUploadSession`),
the read-side streambuf (`ObjectReadStreambuf`) and the upload chunk
request value object (`UploadChunkRequest`).

Bytes are modelled as natural numbers, C++ `std::string` payloads as
`List Nat`, `StatusOr<T>` as `Except Status T`.  The HTTP transport
(`RawClient`) is a parameter: a state-transformer over an abstract world
type, which captures the nondeterminism of the network.
-/

namespace GCS

/-- Subset of `google::cloud::StatusCode` used by the sampled sources. -/
inductive StatusCode where
  | kOk
  | kInvalidArgument
  | kUnavailable
  | kDataLoss
  | kUnknown
deriving DecidableEq

/-- `google::cloud::Status`: a code plus a message. -/
structure Status where
  code : StatusCode
  message : String
deriving DecidableEq

/-- `Status::ok()`. -/
def Status.okStatus (s : Status) : Bool := s.code = StatusCode.kOk

/-- `google::cloud::StatusOr<T>`. -/
abbrev StatusOr (α : Type) := Except Status α

/-- `StatusOr<T>::ok()`. -/
def statusOrOk {α : Type} : StatusOr α → Bool
  | .ok _ => true
  | .error _ => false

/-- `HttpResponse` (http_response.h): status code, payload, headers. -/
structure HttpResponse where
  status_code : Nat
  payload : String
  headers : List (String × String)
deriving DecidableEq

/-- `ResumableUploadResponse` (resumable upload protocol): the payload, the
last committed byte reported by the server, and a possibly new upload
session URL. -/
structure ResumableUploadResponse where
  payload : String
  last_committed_byte : Nat
  upload_session_url : String
deriving DecidableEq

namespace UploadChunkRequest

/-- `UploadChunkRequest::kChunkSizeQuantum` = 256 KiB. -/
def kChunkSizeQuantum : Nat := 256 * 1024

/-- `UploadChunkRequest::RoundUpToQuantum`. -/
def RoundUpToQuantum (max_chunk_size : Nat) : Nat :=
  if max_chunk_size % kChunkSizeQuantum = 0 then max_chunk_size
  else (max_chunk_size / kChunkSizeQuantum + 1) * kChunkSizeQuantum

end UploadChunkRequest

/-- `UploadChunkRequest` (object_requests.h): one chunk of an upload
session.  `range_begin` and `source_size` are `std::uint64_t` fields. -/
structure UploadChunkRequest where
  upload_session_url : String
  range_begin : Nat
  payload : List Nat
  source_size : Nat
  last_chunk : Bool
deriving DecidableEq

namespace UploadChunkRequest

/-- The two-argument constructor (non-final chunk): `source_size_(0)`,
`last_chunk_(false)`. -/
def nonFinal (url : String) (range_begin : Nat) (payload : List Nat) :
    UploadChunkRequest :=
  { upload_session_url := url, range_begin := range_begin, payload := payload,
    source_size := 0, last_chunk := false }

/-- The four-argument constructor (final chunk): `last_chunk_(true)`. -/
def finalChunk (url : String) (range_begin : Nat) (payload : List Nat)
    (source_size : Nat) : UploadChunkRequest :=
  { upload_session_url := url, range_begin := range_begin, payload := payload,
    source_size := source_size, last_chunk := true }

/-- `UploadChunkRequest::range_end()`: the C++ source computes
`range_begin_ + payload_.size() - 1` in `std::uint64_t` arithmetic, so the
subtraction wraps modulo `2 ^ 64`.  We assume the `u64` field invariant
`range_begin < 2 ^ 64` (and `payload.length < 2 ^ 64`). -/
def range_end (r : UploadChunkRequest) : Nat :=
  ((r.range_begin + r.payload.length) % 2 ^ 64 + (2 ^ 64 - 1)) % 2 ^ 64

end UploadChunkRequest

/-- `QueryResumableUploadRequest` (object_requests.h). -/
structure QueryResumableUploadRequest where
  upload_session_url : String
deriving DecidableEq

/-- The HTTP transport (`RawClient`/`CurlClient`), the external
collaborator.  It is a state transformer over an abstract world `ω`,
capturing network nondeterminism; each wire call may advance the world and
returns a `StatusOr<ResumableUploadResponse>`. -/
structure RawClient (ω : Type) where
  uploadChunk : ω → UploadChunkRequest → ω × StatusOr ResumableUploadResponse
  queryResumableUpload :
    ω → QueryResumableUploadRequest → ω × StatusOr ResumableUploadResponse

/-- A client that never fails (every wire call returns an `ok` result). -/
def alwaysOkClient {ω : Type} (client : RawClient ω) : Prop :=
  (∀ w r, statusOrOk (client.uploadChunk w r).2 = true) ∧
  (∀ w r, statusOrOk (client.queryResumableUpload w r).2 = true)

/-- `CurlResumableUploadSession` state: the upload session URL
(`session_id_`) and `next_expected_`. -/
structure CurlResumableUploadSession where
  session_id : String
  next_expected : Nat
deriving DecidableEq

namespace CurlResumableUploadSession

/-- `CurlResumableUploadSession::Update`
(curl_resumable_upload_session.cc:50-63): on failure the state is left
unchanged; on success `next_expected_` becomes `0` when
`last_committed_byte == 0` and `last_committed_byte + 1` otherwise, and
`session_id_` is replaced exactly when the response carries a non-empty
`upload_session_url`. -/
def Update (s : CurlResumableUploadSession)
    (result : StatusOr ResumableUploadResponse) : CurlResumableUploadSession :=
  match result with
  | .error _ => s
  | .ok r =>
    { session_id :=
        if r.upload_session_url = "" then s.session_id else r.upload_session_url
      next_expected :=
        if r.last_committed_byte = 0 then 0 else r.last_committed_byte + 1 }

/-- `CurlResumableUploadSession::UploadChunk`
(curl_resumable_upload_session.cc:23-29): build the request from the
current `session_id_` and `next_expected_`, call the client, `Update`,
return the result (plus the advanced client world). -/
def UploadChunk {ω : Type} (client : RawClient ω) (w : ω)
    (s : CurlResumableUploadSession) (buffer : List Nat) :
    ω × CurlResumableUploadSession × StatusOr ResumableUploadResponse :=
  match client.uploadChunk w
      (UploadChunkRequest.nonFinal s.session_id s.next_expected buffer) with
  | (w', result) => (w', s.Update result, result)

/-- `CurlResumableUploadSession::UploadFinalChunk`
(curl_resumable_upload_session.cc:31-37). -/
def UploadFinalChunk {ω : Type} (client : RawClient ω) (w : ω)
    (s : CurlResumableUploadSession) (buffer : List Nat) (upload_size : Nat) :
    ω × CurlResumableUploadSession × StatusOr ResumableUploadResponse :=
  match client.uploadChunk w
      (UploadChunkRequest.finalChunk s.session_id s.next_expected buffer
        upload_size) with
  | (w', result) => (w', s.Update result, result)

/-- `CurlResumableUploadSession::ResetSession`
(curl_resumable_upload_session.cc:39-44). -/
def ResetSession {ω : Type} (client : RawClient ω) (w : ω)
    (s : CurlResumableUploadSession) :
    ω × CurlResumableUploadSession × StatusOr ResumableUploadResponse :=
  match client.queryResumableUpload w
      (QueryResumableUploadRequest.mk s.session_id) with
  | (w', result) => (w', s.Update result, result)

/-- `CurlResumableUploadSession::next_expected_byte`. -/
def next_expected_byte (s : CurlResumableUploadSession) : Nat := s.next_expected

end CurlResumableUploadSession

/-- One call issued on the `ResumableUploadSession` by the streambuf,
recorded in transmission order (ghost trace used to state the wire-level
properties). -/
inductive SessionCall where
  | uploadChunk (buffer : List Nat)
  | uploadFinalChunk (buffer : List Nat) (upload_size : Nat)
deriving DecidableEq

/-- The buffer transmitted by a session call. -/
def SessionCall.buffer : SessionCall → List Nat
  | .uploadChunk b => b
  | .uploadFinalChunk b _ => b

/-- The buffers of the non-final `UploadChunk` calls of a trace. -/
def chunkBuffers (calls : List SessionCall) : List (List Nat) :=
  calls.filterMap fun c =>
    match c with
    | .uploadChunk b => some b
    | .uploadFinalChunk _ _ => none

/-- The buffers of the `UploadFinalChunk` calls of a trace. -/
def finalBuffers (calls : List SessionCall) : List (List Nat) :=
  calls.filterMap fun c =>
    match c with
    | .uploadChunk _ => none
    | .uploadFinalChunk b _ => some b

/-- The `upload_size` arguments of the `UploadFinalChunk` calls of a
trace. -/
def finalSizes (calls : List SessionCall) : List Nat :=
  calls.filterMap fun c =>
    match c with
    | .uploadChunk _ => none
    | .uploadFinalChunk _ sz => some sz

/-- All bytes handed to the session, in transmission order. -/
def uploadedConcat (calls : List SessionCall) : List Nat :=
  (calls.map SessionCall.buffer).flatten

/-- `CurlResumableStreambuf` state (curl_resumable_streambuf.h/.cc).
`pending` is the put area `[pbase(), pptr())`; `session` is
`upload_session_` (`none` once the final chunk committed and the pointer
was reset); `world` is the transport's abstract state; `hashed` is the
ghost record of every byte range fed to `hash_validator_->Update`, in
order; `calls` is the ghost trace of session calls. -/
structure CurlResumableStreambuf (ω : Type) where
  world : ω
  pending : List Nat
  max_buffer_size : Nat
  session : Option CurlResumableUploadSession
  last_response : HttpResponse
  hashed : List Nat
  calls : List SessionCall

namespace CurlResumableStreambuf

/-- The constructor (curl_resumable_streambuf.cc:24-35): rounds the
configured maximum buffer size up to the quantum, starts with an empty put
area and `last_response_{400, {}, {}}`. -/
def mkStreambuf {ω : Type} (w : ω) (session : CurlResumableUploadSession)
    (max_buffer_size : Nat) : CurlResumableStreambuf ω :=
  { world := w
    pending := []
    max_buffer_size := UploadChunkRequest.RoundUpToQuantum max_buffer_size
    session := some session
    last_response := { status_code := 400, payload := "", headers := [] }
    hashed := []
    calls := [] }

/-- `CurlResumableStreambuf::IsOpen`. -/
def IsOpen {ω : Type} (s : CurlResumableStreambuf ω) : Bool := s.session.isSome

/-- `CurlResumableStreambuf::Flush` (curl_resumable_streambuf.cc:125-161).
If closed, return the cached `last_response_`.  If fewer than
`max_buffer_size_` bytes are buffered, do nothing and return
`last_response_`.  Otherwise send the largest whole-quantum portion of the
put area through `upload_session_->UploadChunk` (feeding it to the hash
validator first) and keep the remainder; on success reset the put area to
the remainder and cache an HTTP 200 response, on failure return the error
(the put-area pointers are left unchanged, so the pending bytes stay). -/
def Flush {ω : Type} (client : RawClient ω) (s : CurlResumableStreambuf ω) :
    CurlResumableStreambuf ω × StatusOr HttpResponse :=
  match s.session with
  | none => (s, .ok s.last_response)
  | some sess =>
    let actual_size := s.pending.length
    if actual_size < s.max_buffer_size then (s, .ok s.last_response)
    else
      let chunk_count := actual_size / UploadChunkRequest.kChunkSizeQuantum
      let chunk_size := chunk_count * UploadChunkRequest.kChunkSizeQuantum
      let not_sent := s.pending.drop chunk_size
      let buffer := s.pending.take chunk_size
      match sess.UploadChunk client s.world buffer with
      | (w', sess', result) =>
        match result with
        | .error st =>
          ({ s with world := w'
                    hashed := s.hashed ++ buffer
                    calls := s.calls ++ [SessionCall.uploadChunk buffer]
                    session := some sess' }, .error st)
        | .ok r =>
          ({ s with world := w'
                    hashed := s.hashed ++ buffer
                    calls := s.calls ++ [SessionCall.uploadChunk buffer]
                    session := some sess'
                    pending := not_sent
                    last_response :=
                      { status_code := 200, payload := r.payload, headers := [] } },
           .ok { status_code := 200, payload := r.payload, headers := [] })

/-- `CurlResumableStreambuf::FlushFinal` (curl_resumable_streambuf.cc:
98-123).  There is no `IsOpen()` guard in the source: when
`upload_session_` is null (after a successful close) the very first
statement `upload_session_->next_expected_byte()` dereferences a null
pointer.  That undefined behavior is modelled by the result `none`.
Otherwise: the whole put area is the final buffer, the total size is
`next_expected_byte() + actual_size`, the buffer is fed to the hash
validator and sent via `UploadFinalChunk`; on success the put area is
emptied, `upload_session_` is reset and an HTTP 200 response is cached. -/
def FlushFinal {ω : Type} (client : RawClient ω) (s : CurlResumableStreambuf ω) :
    CurlResumableStreambuf ω × Option (StatusOr HttpResponse) :=
  match s.session with
  | none => (s, none)
  | some sess =>
    let actual_size := s.pending.length
    let upload_size := sess.next_expected + actual_size
    let buffer := s.pending
    match sess.UploadFinalChunk client s.world buffer upload_size with
    | (w', sess', result) =>
      match result with
      | .error st =>
        ({ s with world := w'
                  hashed := s.hashed ++ buffer
                  calls := s.calls ++ [SessionCall.uploadFinalChunk buffer upload_size]
                  session := some sess' }, some (.error st))
      | .ok r =>
        ({ s with world := w'
                  hashed := s.hashed ++ buffer
                  calls := s.calls ++ [SessionCall.uploadFinalChunk buffer upload_size]
                  pending := []
                  session := none
                  last_response :=
                    { status_code := 200, payload := r.payload, headers := [] } },
         some (.ok { status_code := 200, payload := r.payload, headers := [] }))

/-- `CurlResumableStreambuf::overflow` (curl_resumable_streambuf.cc:47-64)
for a real character (the `traits_type::eof()` argument case, which does
nothing, is not modelled since callers only reach `overflow` with actual
characters here).  If closed, return eof (`none`); otherwise flush first
(a no-op while the buffer is not full) and push the character. -/
def overflow {ω : Type} (client : RawClient ω) (s : CurlResumableStreambuf ω)
    (ch : Nat) : CurlResumableStreambuf ω × Option Nat :=
  match s.session with
  | none => (s, none)
  | some _ =>
    match s.Flush client with
    | (s', .error _) => (s', none)
    | (s', .ok _) => ({ s' with pending := s'.pending ++ [ch] }, some ch)

/-- `CurlResumableStreambuf::xsputn` (curl_resumable_streambuf.cc:74-91):
append the whole incoming buffer to the put area, then flush; return the
count on success and eof (`none`) on failure. -/
def xsputn {ω : Type} (client : RawClient ω) (s : CurlResumableStreambuf ω)
    (bytes : List Nat) : CurlResumableStreambuf ω × Option Nat :=
  match s.session with
  | none => (s, none)
  | some _ =>
    match Flush client { s with pending := s.pending ++ bytes } with
    | (s', .error _) => (s', none)
    | (s', .ok _) => (s', some bytes.length)

/-- `CurlResumableStreambuf::sync` (curl_resumable_streambuf.cc:66-72):
flush; `true` models the `0` return, `false` models eof. -/
def sync {ω : Type} (client : RawClient ω) (s : CurlResumableStreambuf ω) :
    CurlResumableStreambuf ω × Bool :=
  match s.Flush client with
  | (s', st) => (s', statusOrOk st)

/-- `ObjectWriteStreambuf::Close` (object_streambuf.cc:138-141) combined
with `CurlResumableStreambuf::DoClose` (curl_resumable_streambuf.cc:93-96):
`pubsync()` (whose return value is ignored) followed by `FlushFinal`. -/
def Close {ω : Type} (client : RawClient ω) (s : CurlResumableStreambuf ω) :
    CurlResumableStreambuf ω × Option (StatusOr HttpResponse) :=
  match s.sync client with
  | (s', _) => s'.FlushFinal client

end CurlResumableStreambuf

/-- One application-level write: `sputc` (one character, reaching
`overflow`) or `sputn` (a buffer, reaching `xsputn`). -/
inductive WriteOp where
  | putc (ch : Nat)
  | putn (bytes : List Nat)

/-- The bytes a write operation carries. -/
def WriteOp.bytes : WriteOp → List Nat
  | .putc ch => [ch]
  | .putn bs => bs

/-- The logical payload of a sequence of writes. -/
def writtenBytes (ops : List WriteOp) : List Nat :=
  (ops.map WriteOp.bytes).flatten

/-- Apply one write operation to the streambuf (discarding the returned
character/count). -/
def applyWrite {ω : Type} (client : RawClient ω) (s : CurlResumableStreambuf ω) :
    WriteOp → CurlResumableStreambuf ω
  | .putc ch => (s.overflow client ch).1
  | .putn bs => (s.xsputn client bs).1

/-- Run a sequence of write operations. -/
def runWrites {ω : Type} (client : RawClient ω) (s : CurlResumableStreambuf ω)
    (ops : List WriteOp) : CurlResumableStreambuf ω :=
  ops.foldl (applyWrite client) s

/-- The streambuf state after a sequence of writes followed by `Close`. -/
def finalState {ω : Type} (client : RawClient ω) (s : CurlResumableStreambuf ω)
    (ops : List WriteOp) : CurlResumableStreambuf ω :=
  ((runWrites client s ops).Close client).1

/-- A transport that always succeeds with a fixed degenerate response
(`last_committed_byte = 0`, no new session URL), like the happy-path mock
of the unit tests. -/
def constClient : RawClient Unit :=
  { uploadChunk := fun _ _ => ((), .ok ⟨"", 0, ""⟩)
    queryResumableUpload := fun _ _ => ((), .ok ⟨"", 0, ""⟩) }

/-- The response of a server that has committed `c` bytes so far, in the
protocol's degenerate encoding: `last_committed_byte` is `0` when nothing
is committed and `c - 1` otherwise. -/
def faithfulResponse (c : Nat) : ResumableUploadResponse :=
  { payload := ""
    last_committed_byte := if c = 0 then 0 else c - 1
    upload_session_url := "" }

/-- A faithful in-order server: its world is the number of committed
bytes; every chunk commits exactly its payload and is acknowledged with
the degenerate `last_committed_byte` encoding. -/
def faithfulClient : RawClient Nat :=
  { uploadChunk := fun w req =>
      (w + req.payload.length, .ok (faithfulResponse (w + req.payload.length)))
    queryResumableUpload := fun w _ => (w, .ok (faithfulResponse w)) }

/-- A transport whose first wire call fails with a transient error and
whose later calls succeed (world = number of wire calls so far). -/
def failThenOkClient : RawClient Nat :=
  { uploadChunk := fun w _ =>
      (w + 1,
        if w = 0 then .error ⟨StatusCode.kUnavailable, "transient failure"⟩
        else .ok ⟨"", 0, ""⟩)
    queryResumableUpload := fun w _ => (w + 1, .ok ⟨"", 0, ""⟩) }

/-- A tiny streambuf state used as a witness: one pending byte over a
(degenerate) one-byte flush threshold, fresh session, no calls yet. -/
def smallFailState : CurlResumableStreambuf Nat :=
  { world := 0, pending := [5], max_buffer_size := 1,
    session := some ⟨"", 0⟩, last_response := ⟨400, "", []⟩,
    hashed := [], calls := [] }

/-- A payload of exactly one chunk quantum of zero bytes. -/
def quantumZeros : List Nat :=
  List.replicate UploadChunkRequest.kChunkSizeQuantum 0

/-- A payload of exactly two chunk quanta of zero bytes. -/
def bigPayload : List Nat :=
  List.replicate (2 * UploadChunkRequest.kChunkSizeQuantum) 0

/-- `HashValidator::Result` (hash_validator.h): the verdict produced by
finalizing a hash validator. -/
structure HashResult where
  is_mismatch : Bool
  computed : String
  received : String
deriving DecidableEq

/-- The `HashValidator` interface, polymorphic over the validator's
internal state `σ`: incremental `Update`, header scanning
(`ProcessHeader`), and the terminal `Finish`. -/
structure HashValidatorImpl (σ : Type) where
  update : σ → List Nat → σ
  processHeader : σ → String → String → σ
  finish : σ → HashResult

/-- The `ObjectReadSource` collaborator interface, polymorphic over the
source's state `τ`: `IsOpen`, `Read` (which yields the response headers
and the bytes placed into the stream's buffer) and `Close`. -/
structure ReadSourceImpl (τ : Type) where
  isOpen : τ → Bool
  read : τ → τ × StatusOr (HttpResponse × List Nat)
  close : τ → τ × StatusOr HttpResponse

/-- `ObjectReadStreambuf` state (object_streambuf.h/.cc).  `region` is the
get area: `none` models the base class's null pointers (no `setg` call
yet); `some (buf, pos)` models `setg` over `buf` with `gptr` at offset
`pos` (so `buf.length - pos` unread bytes remain).  `finalized` is
`hash_validator_result_` once `Finish` ran.  `readCalls` is a ghost count
of the `source_->Read` invocations. -/
structure ObjectReadStreambuf (σ τ : Type) where
  source : τ
  validator : σ
  finalized : Option HashResult
  region : Option (List Nat × Nat)
  status : Status
  headers : List (String × String)
  readCalls : Nat

namespace ObjectReadStreambuf

/-- The regular constructor (object_streambuf.cc:23-28): fresh validator,
no region, `status_` ok. -/
def mkReadStreambuf {σ τ : Type} (v : σ) (src : τ) : ObjectReadStreambuf σ τ :=
  { source := src, validator := v, finalized := none, region := none,
    status := ⟨StatusCode.kOk, ""⟩, headers := [], readCalls := 0 }

/-- The error constructor (object_streambuf.cc:30-36): the source is an
`ObjectReadErrorSource` over the pre-computed error and `status_` holds
that error. -/
def mkReadStreambufError {σ τ : Type} (v : σ) (src : τ) (st : Status) :
    ObjectReadStreambuf σ τ :=
  { source := src, validator := v, finalized := none, region := none,
    status := st, headers := [], readCalls := 0 }

/-- `ObjectReadStreambuf::SetEmptyRegion` (object_streambuf.cc:131-136):
a one-character buffer with `setg(data, data + 1, data + 1)` — a valid but
fully consumed (empty) readable region. -/
def SetEmptyRegion {σ τ : Type} (s : ObjectReadStreambuf σ τ) :
    ObjectReadStreambuf σ τ :=
  { s with region := some ([0], 1) }

/-- Modelled from the spec: `AsStatus(HttpResponse)` is declared in
http_response.h, whose implementation is not among the sampled sources;
per the spec, any response with `status_code >= 300` is converted to a
uniform application error carrying the payload for diagnostics. -/
def AsStatus (r : HttpResponse) : Status :=
  ⟨StatusCode.kUnknown, r.payload⟩

/-- `ObjectReadStreambuf::Peek` (object_streambuf.cc:47-80).  The result
`Except.ok none` models a successful `traits_type::eof()`, `Except.ok
(some b)` the first byte of a refilled region, and `Except.error` an error
status. -/
def Peek {σ τ : Type} (V : HashValidatorImpl σ) (S : ReadSourceImpl τ)
    (s : ObjectReadStreambuf σ τ) :
    ObjectReadStreambuf σ τ × StatusOr (Option Nat) :=
  if S.isOpen s.source = false then
    (SetEmptyRegion s, .ok none)
  else
    match S.read s.source with
    | (src', .error st) =>
      ({ s with source := src', readCalls := s.readCalls + 1 }, .error st)
    | (src', .ok (response, bytes)) =>
      let s' : ObjectReadStreambuf σ τ :=
        { s with source := src'
                 readCalls := s.readCalls + 1
                 validator := response.headers.foldl
                   (fun v kv => V.processHeader v kv.1 kv.2) s.validator
                 headers := s.headers ++ response.headers }
      if 300 ≤ response.status_code then (s', .error (AsStatus response))
      else
        match bytes with
        | [] => (SetEmptyRegion s', .ok none)
        | b :: rest =>
          ({ s' with validator := V.update s'.validator (b :: rest)
                     region := some (b :: rest, 0) }, .ok (some b))

/-- `ObjectReadStreambuf::ReportError` (object_streambuf.cc:111-129), the
`-fno-exceptions` branch: a non-ok status is cached in `status_` and eof
is returned; an ok status returns eof without touching `status_`. -/
def ReportError {σ τ : Type} (s : ObjectReadStreambuf σ τ) (st : Status) :
    ObjectReadStreambuf σ τ × Option Nat :=
  if st.okStatus then (s, none)
  else ({ s with status := st }, none)

/-- The message built by `ObjectReadStreambuf::underflow` on a hash
mismatch (object_streambuf.cc:91-101, `-fno-exceptions` branch). -/
def mismatchMessage (r : HashResult) : String :=
  "underflow() - mismatched hashes in download, expected=" ++ r.computed ++
    ", received=" ++ r.received

/-- `ObjectReadStreambuf::underflow` (object_streambuf.cc:82-109),
`-fno-exceptions` branch: `Peek`; on an error status, `ReportError`; on
eof, finalize the hash validator and on mismatch cache a
`StatusCode::kDataLoss` status and return eof; otherwise return the
peeked character. -/
def underflow {σ τ : Type} (V : HashValidatorImpl σ) (S : ReadSourceImpl τ)
    (s : ObjectReadStreambuf σ τ) : ObjectReadStreambuf σ τ × Option Nat :=
  match Peek V S s with
  | (s', .error st) => ReportError s' st
  | (s', .ok none) =>
    let result := V.finish s'.validator
    let s'' := { s' with finalized := some result }
    if result.is_mismatch then
      ({ s'' with status := ⟨StatusCode.kDataLoss, mismatchMessage result⟩ },
        none)
    else (s'', none)
  | (s', .ok (some b)) => (s', some b)

end ObjectReadStreambuf

/-- Modelled from the spec: `ObjectReadErrorSource` (object_streambuf.h is
not among the sampled sources) wraps a pre-computed error `Status`; it is
never open, and `Close` surfaces the stored error. -/
def ObjectReadErrorSource : ReadSourceImpl Status :=
  { isOpen := fun _ => false
    read := fun st => (st, .error st)
    close := fun st => (st, .error st) }

/-- `NullHashValidator`: stateless, always reports no mismatch. -/
def NullHashValidator : HashValidatorImpl Unit :=
  { update := fun _ _ => ()
    processHeader := fun _ _ _ => ()
    finish := fun _ => ⟨false, "", ""⟩ }

/-- A concrete validator used as a witness: it records the bytes seen and
reports a mismatch exactly when the stream did not deliver the single
byte `7` (so an empty download mismatches). -/
def expectsSeven : HashValidatorImpl (List Nat) :=
  { update := fun seen bs => seen ++ bs
    processHeader := fun seen _ _ => seen
    finish := fun seen =>
      if seen = [7] then ⟨false, "7", "7"⟩ else ⟨true, "crc-of-7", "crc-seen"⟩ }

/-- A witness read source that is already exhausted: open, and every read
succeeds with an HTTP 200 response carrying no bytes. -/
def exhaustedSource : ReadSourceImpl Unit :=
  { isOpen := fun _ => true
    read := fun _ => ((), .ok (⟨200, "", []⟩, []))
    close := fun _ => ((), .ok ⟨200, "", []⟩) }

/-- The concatenation of the non-final chunk buffers of a trace — the
bytes committed through `UploadChunk`, in order. -/
def sentConcat (calls : List SessionCall) : List Nat :=
  (chunkBuffers calls).flatten

/-- The write-path invariant maintained by all write operations while the
transport keeps succeeding: the session is open, the bytes sent through
`UploadChunk` followed by the pending put area are exactly the bytes
written so far, no final chunk has been sent, every chunk sent so far is a
positive multiple of the quantum, and the flush threshold is at least one
quantum. -/
def WriteInv {ω : Type} (written : List Nat) (s : CurlResumableStreambuf ω) :
    Prop :=
  s.session.isSome = true ∧
  sentConcat s.calls ++ s.pending = written ∧
  finalBuffers s.calls = [] ∧
  finalSizes s.calls = [] ∧
  (∀ b ∈ chunkBuffers s.calls, 0 < b.length ∧
    b.length % UploadChunkRequest.kChunkSizeQuantum = 0) ∧
  UploadChunkRequest.kChunkSizeQuantum ≤ s.max_buffer_size

/-- The strengthened invariant for a run against `faithfulClient` from a
fresh session: additionally, the server's committed-byte count and the
session's `next_expected_` both equal the number of bytes sent through
`UploadChunk` so far, and the flush threshold is exactly one quantum. -/
def FaithfulInv (written : List Nat) (s : CurlResumableStreambuf Nat) : Prop :=
  s.session = some ⟨"", (sentConcat s.calls).length⟩ ∧
  s.world = (sentConcat s.calls).length ∧
  sentConcat s.calls ++ s.pending = written ∧
  finalBuffers s.calls = [] ∧
  finalSizes s.calls = [] ∧
  (∀ b ∈ chunkBuffers s.calls, 0 < b.length ∧
    b.length % UploadChunkRequest.kChunkSizeQuantum = 0) ∧
  s.max_buffer_size = UploadChunkRequest.kChunkSizeQuantum

/-! ### Helper lemmas: characterizing the streambuf operations -/

namespace CurlResumableStreambuf

theorem Flush_closed {ω : Type} (client : RawClient ω)
    (s : CurlResumableStreambuf ω) (hs : s.session = none) :
    s.Flush client = (s, .ok s.last_response) := by
  simp only [Flush, hs]

theorem Flush_small {ω : Type} (client : RawClient ω)
    (s : CurlResumableStreambuf ω) (sess : CurlResumableUploadSession)
    (hs : s.session = some sess)
    (hlt : s.pending.length < s.max_buffer_size) :
    s.Flush client = (s, .ok s.last_response) := by
  simp only [Flush, hs, if_pos hlt]

theorem Flush_fire_ok {ω : Type} (client : RawClient ω)
    (s : CurlResumableStreambuf ω) (sess : CurlResumableUploadSession)
    (w' : ω) (r : ResumableUploadResponse)
    (hs : s.session = some sess)
    (hge : ¬ s.pending.length < s.max_buffer_size)
    (hc : client.uploadChunk s.world
        (UploadChunkRequest.nonFinal sess.session_id sess.next_expected
          (s.pending.take (s.pending.length / UploadChunkRequest.kChunkSizeQuantum *
            UploadChunkRequest.kChunkSizeQuantum))) = (w', .ok r)) :
    s.Flush client =
      ({ s with
          world := w'
          hashed := s.hashed ++ s.pending.take
            (s.pending.length / UploadChunkRequest.kChunkSizeQuantum *
              UploadChunkRequest.kChunkSizeQuantum)
          calls := s.calls ++ [SessionCall.uploadChunk (s.pending.take
            (s.pending.length / UploadChunkRequest.kChunkSizeQuantum *
              UploadChunkRequest.kChunkSizeQuantum))]
          session := some (sess.Update (.ok r))
          pending := s.pending.drop
            (s.pending.length / UploadChunkRequest.kChunkSizeQuantum *
              UploadChunkRequest.kChunkSizeQuantum)
          last_response := ⟨200, r.payload, []⟩ },
       .ok ⟨200, r.payload, []⟩) := by
  simp only [Flush, hs, if_neg hge, CurlResumableUploadSession.UploadChunk, hc]

theorem Flush_fire_error {ω : Type} (client : RawClient ω)
    (s : CurlResumableStreambuf ω) (sess : CurlResumableUploadSession)
    (w' : ω) (st : Status)
    (hs : s.session = some sess)
    (hge : ¬ s.pending.length < s.max_buffer_size)
    (hc : client.uploadChunk s.world
        (UploadChunkRequest.nonFinal sess.session_id sess.next_expected
          (s.pending.take (s.pending.length / UploadChunkRequest.kChunkSizeQuantum *
            UploadChunkRequest.kChunkSizeQuantum))) = (w', .error st)) :
    s.Flush client =
      ({ s with
          world := w'
          hashed := s.hashed ++ s.pending.take
            (s.pending.length / UploadChunkRequest.kChunkSizeQuantum *
              UploadChunkRequest.kChunkSizeQuantum)
          calls := s.calls ++ [SessionCall.uploadChunk (s.pending.take
            (s.pending.length / UploadChunkRequest.kChunkSizeQuantum *
              UploadChunkRequest.kChunkSizeQuantum))]
          session := some sess },
       .error st) := by
  simp only [Flush, hs, if_neg hge, CurlResumableUploadSession.UploadChunk, hc,
    CurlResumableUploadSession.Update]

theorem FlushFinal_closed {ω : Type} (client : RawClient ω)
    (s : CurlResumableStreambuf ω) (hs : s.session = none) :
    s.FlushFinal client = (s, none) := by
  simp only [FlushFinal, hs]

/-- `FlushFinal` on an open session always records exactly one
`UploadFinalChunk` call, with the whole put area as the buffer and
`next_expected_byte() + actual_size` as the total size, whether or not the
wire call succeeds. -/
theorem FlushFinal_calls {ω : Type} (client : RawClient ω)
    (s : CurlResumableStreambuf ω) (sess : CurlResumableUploadSession)
    (hs : s.session = some sess) :
    (s.FlushFinal client).1.calls =
      s.calls ++ [SessionCall.uploadFinalChunk s.pending
        (sess.next_expected + s.pending.length)] ∧
    (s.FlushFinal client).1.hashed = s.hashed ++ s.pending := by
  rcases hc : client.uploadChunk s.world
      (UploadChunkRequest.finalChunk sess.session_id sess.next_expected
        s.pending (sess.next_expected + s.pending.length)) with ⟨w', result⟩
  cases result <;>
    simp only [FlushFinal, hs, CurlResumableUploadSession.UploadFinalChunk, hc] <;>
    simp

theorem FlushFinal_open_ok {ω : Type} (client : RawClient ω)
    (s : CurlResumableStreambuf ω) (sess : CurlResumableUploadSession)
    (w' : ω) (r : ResumableUploadResponse)
    (hs : s.session = some sess)
    (hc : client.uploadChunk s.world
        (UploadChunkRequest.finalChunk sess.session_id sess.next_expected
          s.pending (sess.next_expected + s.pending.length)) = (w', .ok r)) :
    s.FlushFinal client =
      ({ s with
          world := w'
          hashed := s.hashed ++ s.pending
          calls := s.calls ++ [SessionCall.uploadFinalChunk s.pending
            (sess.next_expected + s.pending.length)]
          pending := []
          session := none
          last_response := ⟨200, r.payload, []⟩ },
       some (.ok ⟨200, r.payload, []⟩)) := by
  simp only [FlushFinal, hs, CurlResumableUploadSession.UploadFinalChunk, hc]

/-- Flushing never opens or closes the session. -/
theorem Flush_isSome {ω : Type} (client : RawClient ω)
    (s : CurlResumableStreambuf ω) :
    (s.Flush client).1.session.isSome = s.session.isSome := by
  rcases hs : s.session with _ | sess
  · simp [Flush_closed client s hs, hs]
  · by_cases hlt : s.pending.length < s.max_buffer_size
    · simp [Flush_small client s sess hs hlt, hs]
    · rcases hc : client.uploadChunk s.world
          (UploadChunkRequest.nonFinal sess.session_id sess.next_expected
            (s.pending.take
              (s.pending.length / UploadChunkRequest.kChunkSizeQuantum *
                UploadChunkRequest.kChunkSizeQuantum))) with ⟨w', result⟩
      cases result with
      | error st => simp [Flush_fire_error client s sess w' st hs hlt hc]
      | ok r => simp [Flush_fire_ok client s sess w' r hs hlt hc]

theorem sync_fst {ω : Type} (client : RawClient ω)
    (s : CurlResumableStreambuf ω) :
    (s.sync client).1 = (s.Flush client).1 := by
  unfold sync
  rcases h : s.Flush client with ⟨s', st⟩
  rfl

theorem sync_eq {ω : Type} (client : RawClient ω)
    (s s' : CurlResumableStreambuf ω) (st : StatusOr HttpResponse)
    (hf : s.Flush client = (s', st)) :
    s.sync client = (s', statusOrOk st) := by
  unfold sync
  rw [hf]

theorem Close_eq {ω : Type} (client : RawClient ω)
    (s : CurlResumableStreambuf ω) :
    s.Close client = ((s.sync client).1.FlushFinal client) := by
  unfold Close
  rcases h : s.sync client with ⟨s', b⟩
  rfl

end CurlResumableStreambuf

/-! ### Trace bookkeeping lemmas -/

@[simp] theorem chunkBuffers_nil : chunkBuffers [] = [] := rfl

@[simp] theorem finalBuffers_nil : finalBuffers [] = [] := rfl

@[simp] theorem finalSizes_nil : finalSizes [] = [] := rfl

@[simp] theorem chunkBuffers_append (a b : List SessionCall) :
    chunkBuffers (a ++ b) = chunkBuffers a ++ chunkBuffers b :=
  List.filterMap_append ..

@[simp] theorem finalBuffers_append (a b : List SessionCall) :
    finalBuffers (a ++ b) = finalBuffers a ++ finalBuffers b :=
  List.filterMap_append ..

@[simp] theorem finalSizes_append (a b : List SessionCall) :
    finalSizes (a ++ b) = finalSizes a ++ finalSizes b :=
  List.filterMap_append ..

@[simp] theorem chunkBuffers_chunk (b : List Nat) :
    chunkBuffers [SessionCall.uploadChunk b] = [b] := rfl

@[simp] theorem chunkBuffers_final (b : List Nat) (z : Nat) :
    chunkBuffers [SessionCall.uploadFinalChunk b z] = [] := rfl

@[simp] theorem finalBuffers_chunk (b : List Nat) :
    finalBuffers [SessionCall.uploadChunk b] = [] := rfl

@[simp] theorem finalBuffers_final (b : List Nat) (z : Nat) :
    finalBuffers [SessionCall.uploadFinalChunk b z] = [b] := rfl

@[simp] theorem finalSizes_chunk (b : List Nat) :
    finalSizes [SessionCall.uploadChunk b] = [] := rfl

@[simp] theorem finalSizes_final (b : List Nat) (z : Nat) :
    finalSizes [SessionCall.uploadFinalChunk b z] = [z] := rfl

@[simp] theorem sentConcat_nil : sentConcat [] = [] := rfl

@[simp] theorem sentConcat_append_chunk (a : List SessionCall) (b : List Nat) :
    sentConcat (a ++ [SessionCall.uploadChunk b]) = sentConcat a ++ b := by
  simp [sentConcat]

@[simp] theorem sentConcat_append_final (a : List SessionCall) (b : List Nat)
    (z : Nat) :
    sentConcat (a ++ [SessionCall.uploadFinalChunk b z]) = sentConcat a := by
  simp [sentConcat]

@[simp] theorem runWrites_nil {ω : Type} (client : RawClient ω)
    (s : CurlResumableStreambuf ω) : runWrites client s [] = s := rfl

theorem runWrites_cons {ω : Type} (client : RawClient ω)
    (s : CurlResumableStreambuf ω) (op : WriteOp) (ops : List WriteOp) :
    runWrites client s (op :: ops) =
      runWrites client (applyWrite client s op) ops := rfl

theorem runWrites_append {ω : Type} (client : RawClient ω)
    (s : CurlResumableStreambuf ω) (l₁ l₂ : List WriteOp) :
    runWrites client s (l₁ ++ l₂) =
      runWrites client (runWrites client s l₁) l₂ :=
  List.foldl_append ..

@[simp] theorem writtenBytes_nil : writtenBytes [] = [] := rfl

theorem writtenBytes_cons (op : WriteOp) (ops : List WriteOp) :
    writtenBytes (op :: ops) = op.bytes ++ writtenBytes ops := by
  simp [writtenBytes]

theorem kQ_pos : 0 < UploadChunkRequest.kChunkSizeQuantum := by
  norm_num [UploadChunkRequest.kChunkSizeQuantum]

/-- Any positive configured maximum buffer size rounds up to at least one
quantum. -/
theorem RoundUpToQuantum_ge (m : Nat) (hm : 0 < m) :
    UploadChunkRequest.kChunkSizeQuantum ≤
      UploadChunkRequest.RoundUpToQuantum m := by
  unfold UploadChunkRequest.RoundUpToQuantum
  split
  · next h =>
    exact Nat.le_of_dvd hm (Nat.dvd_of_mod_eq_zero h)
  · calc UploadChunkRequest.kChunkSizeQuantum
        = 1 * UploadChunkRequest.kChunkSizeQuantum := (one_mul _).symm
      _ ≤ (m / UploadChunkRequest.kChunkSizeQuantum + 1) *
            UploadChunkRequest.kChunkSizeQuantum :=
        Nat.mul_le_mul_right _ (Nat.le_add_left 1 _)

namespace CurlResumableStreambuf

/-- With a transport that never fails, flushing never returns an error. -/
theorem Flush_statusOk {ω : Type} (client : RawClient ω)
    (hok : alwaysOkClient client) (s : CurlResumableStreambuf ω) :
    statusOrOk (s.Flush client).2 = true := by
  rcases hs : s.session with _ | sess
  · simp [Flush_closed client s hs, statusOrOk]
  · by_cases hlt : s.pending.length < s.max_buffer_size
    · simp [Flush_small client s sess hs hlt, statusOrOk]
    · rcases hc : client.uploadChunk s.world
          (UploadChunkRequest.nonFinal sess.session_id sess.next_expected
            (s.pending.take
              (s.pending.length / UploadChunkRequest.kChunkSizeQuantum *
                UploadChunkRequest.kChunkSizeQuantum))) with ⟨w', result⟩
      cases result with
      | error st =>
        have hok1 := hok.1 s.world
          (UploadChunkRequest.nonFinal sess.session_id sess.next_expected
            (s.pending.take
              (s.pending.length / UploadChunkRequest.kChunkSizeQuantum *
                UploadChunkRequest.kChunkSizeQuantum)))
        rw [hc] at hok1
        simp [statusOrOk] at hok1
      | ok r => simp [Flush_fire_ok client s sess w' r hs hlt hc, statusOrOk]

theorem overflow_of_flush_ok {ω : Type} (client : RawClient ω)
    (s s' : CurlResumableStreambuf ω) (resp : HttpResponse) (ch : Nat)
    (hopen : s.session.isSome = true)
    (hf : s.Flush client = (s', .ok resp)) :
    s.overflow client ch =
      ({ s' with pending := s'.pending ++ [ch] }, some ch) := by
  unfold overflow
  rcases hs : s.session with _ | sess
  · rw [hs] at hopen; simp at hopen
  · simp only [hf]

theorem xsputn_of_flush_ok {ω : Type} (client : RawClient ω)
    (s s' : CurlResumableStreambuf ω) (resp : HttpResponse) (bs : List Nat)
    (hopen : s.session.isSome = true)
    (hf : Flush client { s with pending := s.pending ++ bs } = (s', .ok resp)) :
    s.xsputn client bs = (s', some bs.length) := by
  unfold xsputn
  rcases hs : s.session with _ | sess
  · rw [hs] at hopen; simp at hopen
  · rw [hs] at hf
    simp only [hf]

theorem xsputn_of_flush_error {ω : Type} (client : RawClient ω)
    (s s' : CurlResumableStreambuf ω) (st : Status) (bs : List Nat)
    (hopen : s.session.isSome = true)
    (hf : Flush client { s with pending := s.pending ++ bs } = (s', .error st)) :
    s.xsputn client bs = (s', none) := by
  unfold xsputn
  rcases hs : s.session with _ | sess
  · rw [hs] at hopen; simp at hopen
  · rw [hs] at hf
    simp only [hf]

end CurlResumableStreambuf

/-! ### Preservation of the write-path invariant -/

/-- The whole-quantum portion that `Flush` carves out of a full buffer is
a positive multiple of the quantum and no larger than the buffer. -/
theorem chunk_size_bounds (n : Nat)
    (hn : UploadChunkRequest.kChunkSizeQuantum ≤ n) :
    0 < n / UploadChunkRequest.kChunkSizeQuantum *
        UploadChunkRequest.kChunkSizeQuantum ∧
    (n / UploadChunkRequest.kChunkSizeQuantum *
        UploadChunkRequest.kChunkSizeQuantum) %
      UploadChunkRequest.kChunkSizeQuantum = 0 ∧
    n / UploadChunkRequest.kChunkSizeQuantum *
        UploadChunkRequest.kChunkSizeQuantum ≤ n := by
  have h1 : 1 ≤ n / UploadChunkRequest.kChunkSizeQuantum :=
    (Nat.one_le_div_iff kQ_pos).mpr hn
  refine ⟨?_, Nat.mul_mod_left _ _, Nat.div_mul_le_self n _⟩
  calc 0 < 1 * UploadChunkRequest.kChunkSizeQuantum := by
        simpa using kQ_pos
    _ ≤ n / UploadChunkRequest.kChunkSizeQuantum *
          UploadChunkRequest.kChunkSizeQuantum :=
        Nat.mul_le_mul_right _ h1

theorem WriteInv_flush {ω : Type} (client : RawClient ω)
    (hok : alwaysOkClient client) (W : List Nat)
    (s : CurlResumableStreambuf ω) (hinv : WriteInv W s) :
    WriteInv W (s.Flush client).1 := by
  obtain ⟨hopen, hconcat, hfb, hfs, hmul, hq⟩ := hinv
  rcases hs : s.session with _ | sess
  · rw [hs] at hopen; simp at hopen
  · by_cases hlt : s.pending.length < s.max_buffer_size
    · rw [CurlResumableStreambuf.Flush_small client s sess hs hlt]
      exact ⟨hopen, hconcat, hfb, hfs, hmul, hq⟩
    · rcases hc : client.uploadChunk s.world
          (UploadChunkRequest.nonFinal sess.session_id sess.next_expected
            (s.pending.take
              (s.pending.length / UploadChunkRequest.kChunkSizeQuantum *
                UploadChunkRequest.kChunkSizeQuantum))) with ⟨w', result⟩
      cases result with
      | error st =>
        have hok1 := hok.1 s.world
          (UploadChunkRequest.nonFinal sess.session_id sess.next_expected
            (s.pending.take
              (s.pending.length / UploadChunkRequest.kChunkSizeQuantum *
                UploadChunkRequest.kChunkSizeQuantum)))
        rw [hc] at hok1
        simp [statusOrOk] at hok1
      | ok r =>
        rw [CurlResumableStreambuf.Flush_fire_ok client s sess w' r hs hlt hc]
        have hn : UploadChunkRequest.kChunkSizeQuantum ≤ s.pending.length :=
          le_trans hq (Nat.le_of_not_lt hlt)
        obtain ⟨hpos, hmod, hle⟩ := chunk_size_bounds s.pending.length hn
        have hlen : (s.pending.take
            (s.pending.length / UploadChunkRequest.kChunkSizeQuantum *
              UploadChunkRequest.kChunkSizeQuantum)).length =
            s.pending.length / UploadChunkRequest.kChunkSizeQuantum *
              UploadChunkRequest.kChunkSizeQuantum := by
          simp [List.length_take, Nat.min_eq_left hle]
        refine ⟨by simp, ?_, by simp [hfb], by simp [hfs], ?_, by simpa using hq⟩
        · simpa [List.append_assoc, List.take_append_drop] using hconcat
        · intro b hb
          simp only [chunkBuffers_append, chunkBuffers_chunk,
            List.mem_append, List.mem_singleton] at hb
          rcases hb with hb | rfl
          · exact hmul b hb
          · rw [hlen]
            exact ⟨hpos, hmod⟩

theorem WriteInv_overflow {ω : Type} (client : RawClient ω)
    (hok : alwaysOkClient client) (W : List Nat)
    (s : CurlResumableStreambuf ω) (ch : Nat) (hinv : WriteInv W s) :
    WriteInv (W ++ [ch]) (s.overflow client ch).1 := by
  have hopen := hinv.1
  have hinv' := WriteInv_flush client hok W s hinv
  rcases hf : s.Flush client with ⟨s', st⟩
  rw [hf] at hinv'
  cases st with
  | error e =>
    have := CurlResumableStreambuf.Flush_statusOk client hok s
    rw [hf] at this
    simp [statusOrOk] at this
  | ok resp =>
    rw [CurlResumableStreambuf.overflow_of_flush_ok client s s' resp ch hopen hf]
    obtain ⟨h1, h2, h3, h4, h5, h6⟩ := hinv'
    exact ⟨by simpa using h1, by simp [← List.append_assoc, h2], by simpa using h3,
      by simpa using h4, by simpa using h5, by simpa using h6⟩

theorem WriteInv_xsputn {ω : Type} (client : RawClient ω)
    (hok : alwaysOkClient client) (W : List Nat)
    (s : CurlResumableStreambuf ω) (bs : List Nat) (hinv : WriteInv W s) :
    WriteInv (W ++ bs) (s.xsputn client bs).1 := by
  have hopen := hinv.1
  obtain ⟨h1, h2, h3, h4, h5, h6⟩ := hinv
  have hmid : WriteInv (W ++ bs) { s with pending := s.pending ++ bs } :=
    ⟨by simpa using h1, by simp [← List.append_assoc, h2], by simpa using h3,
      by simpa using h4, by simpa using h5, by simpa using h6⟩
  have hinv' := WriteInv_flush client hok (W ++ bs) _ hmid
  rcases hf : CurlResumableStreambuf.Flush client
      { s with pending := s.pending ++ bs } with ⟨s', st⟩
  rw [hf] at hinv'
  cases st with
  | error e =>
    have := CurlResumableStreambuf.Flush_statusOk client hok
      { s with pending := s.pending ++ bs }
    rw [hf] at this
    simp [statusOrOk] at this
  | ok resp =>
    rw [CurlResumableStreambuf.xsputn_of_flush_ok client s s' resp bs hopen hf]
    exact hinv'

theorem WriteInv_run {ω : Type} (client : RawClient ω)
    (hok : alwaysOkClient client) (ops : List WriteOp) :
    ∀ (W : List Nat) (s : CurlResumableStreambuf ω), WriteInv W s →
      WriteInv (W ++ writtenBytes ops) (runWrites client s ops) := by
  induction ops with
  | nil => intro W s hinv; simpa using hinv
  | cons op rest ih =>
    intro W s hinv
    rw [runWrites_cons, writtenBytes_cons, ← List.append_assoc]
    apply ih
    cases op with
    | putc ch => exact WriteInv_overflow client hok W s ch hinv
    | putn bs => exact WriteInv_xsputn client hok W s bs hinv

theorem WriteInv_mk {ω : Type} (w : ω) (sess : CurlResumableUploadSession)
    (m : Nat) (hm : 0 < m) :
    WriteInv [] (CurlResumableStreambuf.mkStreambuf w sess m) := by
  refine ⟨rfl, rfl, rfl, rfl, ?_, ?_⟩
  · intro b hb; simp [chunkBuffers, CurlResumableStreambuf.mkStreambuf] at hb
  · simpa [CurlResumableStreambuf.mkStreambuf] using RoundUpToQuantum_ge m hm

theorem kQ_eq : UploadChunkRequest.kChunkSizeQuantum = 262144 := by
  norm_num [UploadChunkRequest.kChunkSizeQuantum]

theorem quantumZeros_length : quantumZeros.length = 262144 := by
  rw [quantumZeros, List.length_replicate, kQ_eq]

theorem quantumZeros_take : quantumZeros.take 262144 = quantumZeros := by
  rw [quantumZeros, kQ_eq, List.take_replicate, Nat.min_self]

theorem quantumZeros_drop : quantumZeros.drop 262144 = [] := by
  rw [quantumZeros, kQ_eq, List.drop_replicate, Nat.sub_self,
    List.replicate_zero]

/-! ### Claims -/

/-- C1: for every sequence of writes totaling `N` bytes to a
`CurlResumableStreambuf` (built over a positive configured maximum buffer
size, against a transport that succeeds) followed by `Close`, every buffer
passed to `UploadChunk` has a length that is an exact positive multiple of
262144 bytes, exactly one `UploadFinalChunk` is issued, and the sum of all
`UploadChunk` buffer lengths plus the final buffer length equals `N`. -/
theorem C1_quantum_alignment {ω : Type} (client : RawClient ω)
    (hok : alwaysOkClient client) (w : ω) (sess : CurlResumableUploadSession)
    (m : Nat) (hm : 0 < m) (ops : List WriteOp) :
    (∀ b ∈ chunkBuffers
        (finalState client (CurlResumableStreambuf.mkStreambuf w sess m)
          ops).calls,
      0 < b.length ∧ b.length % 262144 = 0) ∧
    (finalBuffers
        (finalState client (CurlResumableStreambuf.mkStreambuf w sess m)
          ops).calls).length = 1 ∧
    ((chunkBuffers
        (finalState client (CurlResumableStreambuf.mkStreambuf w sess m)
          ops).calls).map List.length).sum +
      ((finalBuffers
        (finalState client (CurlResumableStreambuf.mkStreambuf w sess m)
          ops).calls).map List.length).sum = (writtenBytes ops).length := by
  have hrun : WriteInv (writtenBytes ops)
      (runWrites client (CurlResumableStreambuf.mkStreambuf w sess m) ops) := by
    simpa using WriteInv_run client hok ops []
      (CurlResumableStreambuf.mkStreambuf w sess m) (WriteInv_mk w sess m hm)
  set s₂ := runWrites client (CurlResumableStreambuf.mkStreambuf w sess m) ops
    with hs₂
  have hinv₃ : WriteInv (writtenBytes ops) (s₂.Flush client).1 :=
    WriteInv_flush client hok _ s₂ hrun
  set s₃ := (s₂.Flush client).1 with hs₃
  obtain ⟨hopen₃, hconcat₃, hfb₃, hfs₃, hmul₃, hq₃⟩ := hinv₃
  obtain ⟨sess₃, hsess₃⟩ := Option.isSome_iff_exists.mp hopen₃
  have hclose : (s₂.Close client).1.calls =
      s₃.calls ++ [SessionCall.uploadFinalChunk s₃.pending
        (sess₃.next_expected + s₃.pending.length)] := by
    rw [CurlResumableStreambuf.Close_eq, CurlResumableStreambuf.sync_fst, ← hs₃]
    exact (CurlResumableStreambuf.FlushFinal_calls client s₃ sess₃ hsess₃).1
  have hfinal : finalState client (CurlResumableStreambuf.mkStreambuf w sess m)
      ops = (s₂.Close client).1 := rfl
  rw [hfinal, hclose]
  refine ⟨?_, ?_, ?_⟩
  · intro b hb
    simp only [chunkBuffers_append, chunkBuffers_final, List.append_nil] at hb
    have := hmul₃ b hb
    rwa [kQ_eq] at this
  · simp [hfb₃]
  · have hlen := congrArg List.length hconcat₃
    simp only [List.length_append] at hlen
    have hsc : (sentConcat s₃.calls).length =
        ((chunkBuffers s₃.calls).map List.length).sum := by
      simp [sentConcat]
    simp only [chunkBuffers_append, chunkBuffers_final, List.append_nil,
      finalBuffers_append, finalBuffers_final, hfb₃, List.nil_append,
      List.map_cons, List.map_nil, List.sum_cons, List.sum_nil]
    omega

/-- Witness for C1: a single three-byte bulk write against the
always-succeeding transport. -/
theorem C1_quantum_alignment_witness :
    alwaysOkClient constClient ∧ 0 < 262144 ∧
    ((∀ b ∈ chunkBuffers
        (finalState constClient
          (CurlResumableStreambuf.mkStreambuf () ⟨"", 0⟩ 262144)
          [WriteOp.putn [1, 2, 3]]).calls,
      0 < b.length ∧ b.length % 262144 = 0) ∧
    (finalBuffers
        (finalState constClient
          (CurlResumableStreambuf.mkStreambuf () ⟨"", 0⟩ 262144)
          [WriteOp.putn [1, 2, 3]]).calls).length = 1 ∧
    ((chunkBuffers
        (finalState constClient
          (CurlResumableStreambuf.mkStreambuf () ⟨"", 0⟩ 262144)
          [WriteOp.putn [1, 2, 3]]).calls).map List.length).sum +
      ((finalBuffers
        (finalState constClient
          (CurlResumableStreambuf.mkStreambuf () ⟨"", 0⟩ 262144)
          [WriteOp.putn [1, 2, 3]]).calls).map List.length).sum =
        (writtenBytes [WriteOp.putn [1, 2, 3]]).length) :=
  ⟨⟨fun _ _ => rfl, fun _ _ => rfl⟩, by norm_num,
    C1_quantum_alignment constClient ⟨fun _ _ => rfl, fun _ _ => rfl⟩ ()
      ⟨"", 0⟩ 262144 (by norm_num) [WriteOp.putn [1, 2, 3]]⟩

/-- C2: `Close` on an open write stream always issues exactly one
`UploadFinalChunk` call — even when the remaining buffered data is empty —
whose buffer is exactly the bytes still pending after the closing
`pubsync` flush and whose total size is the session's
`next_expected_byte()` (server-acknowledged progress) plus the number of
those remaining bytes. -/
theorem C2_close_issues_final {ω : Type} (client : RawClient ω)
    (s : CurlResumableStreambuf ω) (hopen : s.session.isSome = true) :
    ∃ sess₁, (s.sync client).1.session = some sess₁ ∧
      (s.Close client).1.calls =
        (s.sync client).1.calls ++
          [SessionCall.uploadFinalChunk (s.sync client).1.pending
            (sess₁.next_expected + (s.sync client).1.pending.length)] := by
  have h1 : (s.sync client).1.session.isSome = true := by
    rw [CurlResumableStreambuf.sync_fst, CurlResumableStreambuf.Flush_isSome]
    exact hopen
  obtain ⟨sess₁, hs₁⟩ := Option.isSome_iff_exists.mp h1
  refine ⟨sess₁, hs₁, ?_⟩
  rw [CurlResumableStreambuf.Close_eq]
  exact (CurlResumableStreambuf.FlushFinal_calls client _ sess₁ hs₁).1

/-- Witness for C2: closing a freshly-constructed (zero-byte) stream
issues the final chunk with an empty buffer. -/
theorem C2_close_issues_final_witness :
    (CurlResumableStreambuf.mkStreambuf () (⟨"", 0⟩ : CurlResumableUploadSession)
        262144).session.isSome = true ∧
    (∃ sess₁,
      ((CurlResumableStreambuf.mkStreambuf () ⟨"", 0⟩ 262144).sync
          constClient).1.session = some sess₁ ∧
      ((CurlResumableStreambuf.mkStreambuf () ⟨"", 0⟩ 262144).Close
          constClient).1.calls =
        ((CurlResumableStreambuf.mkStreambuf () ⟨"", 0⟩ 262144).sync
            constClient).1.calls ++
          [SessionCall.uploadFinalChunk
            ((CurlResumableStreambuf.mkStreambuf () ⟨"", 0⟩ 262144).sync
                constClient).1.pending
            (sess₁.next_expected +
              ((CurlResumableStreambuf.mkStreambuf () ⟨"", 0⟩ 262144).sync
                  constClient).1.pending.length)]) :=
  ⟨rfl, C2_close_issues_final constClient
    (CurlResumableStreambuf.mkStreambuf () ⟨"", 0⟩ 262144) rfl⟩

/-- C3: each of `UploadChunk`, `UploadFinalChunk` and `ResetSession` moves
the session state exactly by `Update` applied to the wire result, and
`Update` leaves the state unchanged on failure while on success setting
`next_expected_` to `0` when `last_committed_byte == 0` and to
`last_committed_byte + 1` otherwise, replacing `session_id_` exactly when
the response carries a non-empty upload session URL. -/
theorem C3_session_update {ω : Type} (client : RawClient ω) (w : ω)
    (s : CurlResumableUploadSession) (buffer : List Nat) (upload_size : Nat)
    (st : Status) (pl : String) (lcb : Nat) (url : String) :
    (s.UploadChunk client w buffer).2.1 =
      s.Update (s.UploadChunk client w buffer).2.2 ∧
    (s.UploadFinalChunk client w buffer upload_size).2.1 =
      s.Update (s.UploadFinalChunk client w buffer upload_size).2.2 ∧
    (s.ResetSession client w).2.1 = s.Update (s.ResetSession client w).2.2 ∧
    s.Update (.error st) = s ∧
    s.Update (.ok ⟨pl, lcb, url⟩) =
      { session_id := if url = "" then s.session_id else url
        next_expected := if lcb = 0 then 0 else lcb + 1 } := by
  refine ⟨?_, ?_, ?_, rfl, rfl⟩
  · rcases h : client.uploadChunk w
        (UploadChunkRequest.nonFinal s.session_id s.next_expected buffer) with
      ⟨w', result⟩
    simp [CurlResumableUploadSession.UploadChunk, h]
  · rcases h : client.uploadChunk w
        (UploadChunkRequest.finalChunk s.session_id s.next_expected buffer
          upload_size) with ⟨w', result⟩
    simp [CurlResumableUploadSession.UploadFinalChunk, h]
  · rcases h : client.queryResumableUpload w
        (QueryResumableUploadRequest.mk s.session_id) with ⟨w', result⟩
    simp [CurlResumableUploadSession.ResetSession, h]

/-- C10: for an `UploadChunkRequest` with an empty payload, `range_end()`
equals `range_begin - 1` computed modulo `2 ^ 64`, which wraps to
`2 ^ 64 - 1` when `range_begin` is `0`. -/
theorem C10_range_end_wrap (r : UploadChunkRequest)
    (hrb : r.range_begin < 2 ^ 64) (hp : r.payload = []) :
    r.range_end = (r.range_begin + 2 ^ 64 - 1) % 2 ^ 64 ∧
    (r.range_begin = 0 → r.range_end = 2 ^ 64 - 1) := by
  have hW : (2 : Nat) ^ 64 = 18446744073709551616 := by norm_num
  unfold UploadChunkRequest.range_end
  rw [hp, hW]
  simp only [List.length_nil, Nat.add_zero]
  rw [hW] at hrb
  constructor
  · omega
  · intro h0; omega

/-- C5: whenever reading past the last byte (the refill reports a clean
end-of-stream), `underflow` finalizes the hash validator; if the verdict
is a mismatch it caches a `StatusCode::kDataLoss` status (the
data-integrity error of the `-fno-exceptions` build, distinguishable from
a plain EOF which leaves the status untouched) and returns eof. -/
theorem C5_mismatch_data_loss {σ τ : Type} (V : HashValidatorImpl σ)
    (S : ReadSourceImpl τ) (s : ObjectReadStreambuf σ τ)
    (heof : (ObjectReadStreambuf.Peek V S s).2 = .ok none) :
    (ObjectReadStreambuf.underflow V S s).2 = none ∧
    (ObjectReadStreambuf.underflow V S s).1.finalized =
      some (V.finish (ObjectReadStreambuf.Peek V S s).1.validator) ∧
    ((V.finish (ObjectReadStreambuf.Peek V S s).1.validator).is_mismatch =
        true →
      (ObjectReadStreambuf.underflow V S s).1.status =
        ⟨StatusCode.kDataLoss,
          ObjectReadStreambuf.mismatchMessage
            (V.finish (ObjectReadStreambuf.Peek V S s).1.validator)⟩) ∧
    ((V.finish (ObjectReadStreambuf.Peek V S s).1.validator).is_mismatch =
        false →
      (ObjectReadStreambuf.underflow V S s).1.status =
        (ObjectReadStreambuf.Peek V S s).1.status) := by
  rcases hp : ObjectReadStreambuf.Peek V S s with ⟨s', r⟩
  rw [hp] at heof
  have hr : r = .ok none := heof
  subst hr
  by_cases hm : (V.finish s'.validator).is_mismatch
  · simp [ObjectReadStreambuf.underflow, hp, hm]
  · simp [ObjectReadStreambuf.underflow, hp, hm]

/-- Witness for C5: a validator expecting the byte `7` over an exhausted
source; the empty download mismatches and yields `kDataLoss`. -/
theorem C5_mismatch_data_loss_witness :
    (ObjectReadStreambuf.Peek expectsSeven exhaustedSource
        (ObjectReadStreambuf.mkReadStreambuf [] ())).2 = .ok none ∧
    ((ObjectReadStreambuf.underflow expectsSeven exhaustedSource
        (ObjectReadStreambuf.mkReadStreambuf [] ())).2 = none ∧
    (ObjectReadStreambuf.underflow expectsSeven exhaustedSource
        (ObjectReadStreambuf.mkReadStreambuf [] ())).1.finalized =
      some (expectsSeven.finish
        (ObjectReadStreambuf.Peek expectsSeven exhaustedSource
          (ObjectReadStreambuf.mkReadStreambuf [] ())).1.validator) ∧
    ((expectsSeven.finish
        (ObjectReadStreambuf.Peek expectsSeven exhaustedSource
          (ObjectReadStreambuf.mkReadStreambuf [] ())).1.validator).is_mismatch =
        true →
      (ObjectReadStreambuf.underflow expectsSeven exhaustedSource
          (ObjectReadStreambuf.mkReadStreambuf [] ())).1.status =
        ⟨StatusCode.kDataLoss,
          ObjectReadStreambuf.mismatchMessage
            (expectsSeven.finish
              (ObjectReadStreambuf.Peek expectsSeven exhaustedSource
                (ObjectReadStreambuf.mkReadStreambuf [] ())).1.validator)⟩) ∧
    ((expectsSeven.finish
        (ObjectReadStreambuf.Peek expectsSeven exhaustedSource
          (ObjectReadStreambuf.mkReadStreambuf [] ())).1.validator).is_mismatch =
        false →
      (ObjectReadStreambuf.underflow expectsSeven exhaustedSource
          (ObjectReadStreambuf.mkReadStreambuf [] ())).1.status =
        (ObjectReadStreambuf.Peek expectsSeven exhaustedSource
          (ObjectReadStreambuf.mkReadStreambuf [] ())).1.status)) :=
  ⟨rfl, C5_mismatch_data_loss expectsSeven exhaustedSource
    (ObjectReadStreambuf.mkReadStreambuf [] ()) rfl⟩

/-- C8: reading from a stream whose source was never opened performs no
`Read` on the source, installs the valid-but-empty region (a one-byte
backing buffer, fully consumed — never null), goes straight to the
EOF/hash-validation path (the validator is finalized on the bytes seen,
none), returns eof, and — when the finalized validator reports no
mismatch — leaves the stream's status untouched (an empty object yields a
valid, checksum-validated, empty stream rather than an error). -/
theorem C8_unopened_source {σ τ : Type} (V : HashValidatorImpl σ)
    (S : ReadSourceImpl τ) (s : ObjectReadStreambuf σ τ)
    (hclosed : S.isOpen s.source = false) :
    (ObjectReadStreambuf.underflow V S s).1.readCalls = s.readCalls ∧
    (ObjectReadStreambuf.underflow V S s).1.region = some ([0], 1) ∧
    (ObjectReadStreambuf.underflow V S s).1.finalized =
      some (V.finish s.validator) ∧
    (ObjectReadStreambuf.underflow V S s).2 = none ∧
    ((V.finish s.validator).is_mismatch = false →
      (ObjectReadStreambuf.underflow V S s).1.status = s.status) := by
  have hp : ObjectReadStreambuf.Peek V S s =
      (ObjectReadStreambuf.SetEmptyRegion s, .ok none) := by
    simp [ObjectReadStreambuf.Peek, hclosed]
  by_cases hm : (V.finish s.validator).is_mismatch
  · simp [ObjectReadStreambuf.underflow, hp, ObjectReadStreambuf.SetEmptyRegion,
      hm]
  · simp [ObjectReadStreambuf.underflow, hp, ObjectReadStreambuf.SetEmptyRegion,
      hm]

/-- Witness for C8: a stream constructed from a pre-computed error (its
source is an `ObjectReadErrorSource`, never open) with the null hash
validator. -/
theorem C8_unopened_source_witness :
    ObjectReadErrorSource.isOpen
      (ObjectReadStreambuf.mkReadStreambuf () (⟨StatusCode.kOk, ""⟩ : Status)
        : ObjectReadStreambuf Unit Status).source = false ∧
    ((ObjectReadStreambuf.underflow NullHashValidator ObjectReadErrorSource
        (ObjectReadStreambuf.mkReadStreambuf () ⟨StatusCode.kOk, ""⟩)).1.readCalls =
      (ObjectReadStreambuf.mkReadStreambuf () (⟨StatusCode.kOk, ""⟩ : Status)
        : ObjectReadStreambuf Unit Status).readCalls ∧
    (ObjectReadStreambuf.underflow NullHashValidator ObjectReadErrorSource
        (ObjectReadStreambuf.mkReadStreambuf () ⟨StatusCode.kOk, ""⟩)).1.region =
      some ([0], 1) ∧
    (ObjectReadStreambuf.underflow NullHashValidator ObjectReadErrorSource
        (ObjectReadStreambuf.mkReadStreambuf () ⟨StatusCode.kOk, ""⟩)).1.finalized =
      some (NullHashValidator.finish
        (ObjectReadStreambuf.mkReadStreambuf () (⟨StatusCode.kOk, ""⟩ : Status)
          : ObjectReadStreambuf Unit Status).validator) ∧
    (ObjectReadStreambuf.underflow NullHashValidator ObjectReadErrorSource
        (ObjectReadStreambuf.mkReadStreambuf () ⟨StatusCode.kOk, ""⟩)).2 = none ∧
    ((NullHashValidator.finish
        (ObjectReadStreambuf.mkReadStreambuf () (⟨StatusCode.kOk, ""⟩ : Status)
          : ObjectReadStreambuf Unit Status).validator).is_mismatch = false →
      (ObjectReadStreambuf.underflow NullHashValidator ObjectReadErrorSource
          (ObjectReadStreambuf.mkReadStreambuf () ⟨StatusCode.kOk, ""⟩)).1.status =
        (ObjectReadStreambuf.mkReadStreambuf () (⟨StatusCode.kOk, ""⟩ : Status)
          : ObjectReadStreambuf Unit Status).status)) :=
  ⟨rfl, C8_unopened_source NullHashValidator ObjectReadErrorSource
    (ObjectReadStreambuf.mkReadStreambuf () ⟨StatusCode.kOk, ""⟩) rfl⟩

/-- C6 evidence: the first `Close` of a fresh (zero-byte) stream succeeds
with the HTTP 200 result, which is cached in `last_response_` and resets
`upload_session_`; but a second `Close` reaches `FlushFinal`, which has no
`IsOpen()` guard and immediately dereferences the now-null
`upload_session_` (`none` result, the undefined-behavior marker) instead
of returning the cached success without a second `UploadFinalChunk`. -/
theorem C6_double_close_null_deref :
    ((CurlResumableStreambuf.mkStreambuf () (⟨"", 0⟩ :
        CurlResumableUploadSession) 262144).Close constClient).2 =
      some (.ok ⟨200, "", []⟩) ∧
    ((CurlResumableStreambuf.mkStreambuf () (⟨"", 0⟩ :
        CurlResumableUploadSession) 262144).Close constClient).1.last_response =
      ⟨200, "", []⟩ ∧
    ((CurlResumableStreambuf.mkStreambuf () (⟨"", 0⟩ :
        CurlResumableUploadSession) 262144).Close constClient).1.session =
      none ∧
    ((((CurlResumableStreambuf.mkStreambuf () (⟨"", 0⟩ :
        CurlResumableUploadSession) 262144).Close constClient).1.Close
          constClient).2 = none) ∧
    ((((CurlResumableStreambuf.mkStreambuf () (⟨"", 0⟩ :
        CurlResumableUploadSession) 262144).Close constClient).1.Close
          constClient).1.calls =
      ((CurlResumableStreambuf.mkStreambuf () (⟨"", 0⟩ :
        CurlResumableUploadSession) 262144).Close constClient).1.calls) :=
  ⟨rfl, rfl, rfl, rfl, rfl⟩

/-- C4 counterexample: a streambuf configured with a two-quantum maximum
buffer size holding exactly one quantum of buffered bytes: an explicit
flush (`sync`, i.e. `pubsync`) sends nothing — no `UploadChunk` call is
made even though a complete quantum is available — and the pending buffer
still holds a full quantum afterwards, contradicting both "sends exactly
floor(buffered_size / quantum) * quantum bytes" and "after any flush the
pending buffer holds fewer than one chunk quantum". -/
theorem C4_flush_retains_full_quantum :
    (((CurlResumableStreambuf.mkStreambuf () (⟨"", 0⟩ :
          CurlResumableUploadSession) 524288).xsputn constClient
        quantumZeros).1.sync constClient).1.calls = [] ∧
    (((CurlResumableStreambuf.mkStreambuf () (⟨"", 0⟩ :
          CurlResumableUploadSession) 524288).xsputn constClient
        quantumZeros).1.sync constClient).1.pending.length = 262144 ∧
    ¬ ((((CurlResumableStreambuf.mkStreambuf () (⟨"", 0⟩ :
          CurlResumableUploadSession) 524288).xsputn constClient
        quantumZeros).1.sync constClient).1.pending.length < 262144) := by
  have hmk : (CurlResumableStreambuf.mkStreambuf () (⟨"", 0⟩ :
      CurlResumableUploadSession) 524288 : CurlResumableStreambuf Unit) =
      ⟨(), [], 524288, some ⟨"", 0⟩, ⟨400, "", []⟩, [], []⟩ := by
    simp [CurlResumableStreambuf.mkStreambuf,
      UploadChunkRequest.RoundUpToQuantum, UploadChunkRequest.kChunkSizeQuantum]
  have hlen : quantumZeros.length < 524288 := by
    rw [quantumZeros_length]; omega
  have hflush1 : CurlResumableStreambuf.Flush constClient
      (⟨(), quantumZeros, 524288, some ⟨"", 0⟩, ⟨400, "", []⟩, [], []⟩ :
        CurlResumableStreambuf Unit) =
      (⟨(), quantumZeros, 524288, some ⟨"", 0⟩, ⟨400, "", []⟩, [], []⟩,
        .ok ⟨400, "", []⟩) :=
    CurlResumableStreambuf.Flush_small constClient _ ⟨"", 0⟩ rfl hlen
  have hx : CurlResumableStreambuf.xsputn constClient
      (⟨(), [], 524288, some ⟨"", 0⟩, ⟨400, "", []⟩, [], []⟩ :
        CurlResumableStreambuf Unit) quantumZeros =
      (⟨(), quantumZeros, 524288, some ⟨"", 0⟩, ⟨400, "", []⟩, [], []⟩,
        some quantumZeros.length) :=
    CurlResumableStreambuf.xsputn_of_flush_ok constClient _ _ _ _ rfl hflush1
  have hsync : CurlResumableStreambuf.sync constClient
      (⟨(), quantumZeros, 524288, some ⟨"", 0⟩, ⟨400, "", []⟩, [], []⟩ :
        CurlResumableStreambuf Unit) =
      (⟨(), quantumZeros, 524288, some ⟨"", 0⟩, ⟨400, "", []⟩, [], []⟩,
        true) :=
    CurlResumableStreambuf.sync_eq constClient _ _ _ hflush1
  have hpair : ((⟨(), quantumZeros, 524288, some ⟨"", 0⟩, ⟨400, "", []⟩, [],
      []⟩, some quantumZeros.length) :
        CurlResumableStreambuf Unit × Option Nat).1 =
      (⟨(), quantumZeros, 524288, some ⟨"", 0⟩, ⟨400, "", []⟩, [], []⟩ :
        CurlResumableStreambuf Unit) := rfl
  refine ⟨?_, ?_, ?_⟩
  · rw [hmk, hx, hpair, hsync]
  · rw [hmk, hx, hpair, hsync]
    exact quantumZeros_length
  · rw [hmk, hx, hpair, hsync]
    show ¬ quantumZeros.length < 262144
    rw [quantumZeros_length]
    omega

/-- C4 amended: `flush()` is a no-op (retaining all buffered bytes) while
fewer than `max_buffer_size_` bytes are buffered; only once the buffer
reaches `max_buffer_size_` (the configured maximum rounded up to a quantum
multiple) does it send exactly `floor(buffered_size / quantum) * quantum`
bytes in a single `UploadChunk`, retaining the remainder in write order,
after which fewer than one quantum is pending.  (The original claim holds
as stated exactly when `max_buffer_size_` is one quantum.) -/
theorem C4_flush_gated_by_max {ω : Type} (client : RawClient ω)
    (hok : alwaysOkClient client) (s : CurlResumableStreambuf ω)
    (sess : CurlResumableUploadSession) (hs : s.session = some sess) :
    (s.pending.length < s.max_buffer_size → (s.sync client).1 = s) ∧
    (s.max_buffer_size ≤ s.pending.length →
      (s.sync client).1.calls = s.calls ++
        [SessionCall.uploadChunk (s.pending.take
          (s.pending.length / UploadChunkRequest.kChunkSizeQuantum *
            UploadChunkRequest.kChunkSizeQuantum))] ∧
      (s.sync client).1.pending = s.pending.drop
        (s.pending.length / UploadChunkRequest.kChunkSizeQuantum *
          UploadChunkRequest.kChunkSizeQuantum) ∧
      s.pending.take
          (s.pending.length / UploadChunkRequest.kChunkSizeQuantum *
            UploadChunkRequest.kChunkSizeQuantum) ++
        s.pending.drop
          (s.pending.length / UploadChunkRequest.kChunkSizeQuantum *
            UploadChunkRequest.kChunkSizeQuantum) = s.pending ∧
      (UploadChunkRequest.kChunkSizeQuantum ≤ s.max_buffer_size →
        (s.sync client).1.pending.length <
          UploadChunkRequest.kChunkSizeQuantum)) := by
  constructor
  · intro hlt
    rw [CurlResumableStreambuf.sync_fst,
      CurlResumableStreambuf.Flush_small client s sess hs hlt]
  · intro hge
    have hnlt : ¬ s.pending.length < s.max_buffer_size := Nat.not_lt.mpr hge
    rcases hc : client.uploadChunk s.world
        (UploadChunkRequest.nonFinal sess.session_id sess.next_expected
          (s.pending.take
            (s.pending.length / UploadChunkRequest.kChunkSizeQuantum *
              UploadChunkRequest.kChunkSizeQuantum))) with ⟨w', result⟩
    cases result with
    | error st =>
      have hok1 := hok.1 s.world
        (UploadChunkRequest.nonFinal sess.session_id sess.next_expected
          (s.pending.take
            (s.pending.length / UploadChunkRequest.kChunkSizeQuantum *
              UploadChunkRequest.kChunkSizeQuantum)))
      rw [hc] at hok1
      simp [statusOrOk] at hok1
    | ok r =>
      rw [CurlResumableStreambuf.sync_fst,
        CurlResumableStreambuf.Flush_fire_ok client s sess w' r hs hnlt hc]
      refine ⟨by simp, by simp, List.take_append_drop .., ?_⟩
      intro hq
      simp only [List.length_drop]
      have hmod := Nat.mod_add_div s.pending.length
        UploadChunkRequest.kChunkSizeQuantum
      have hlt := Nat.mod_lt s.pending.length kQ_pos
      rw [kQ_eq] at hmod hlt ⊢
      omega

/-- Witness for C4 amended: a fresh one-quantum-threshold stream against
the always-succeeding transport. -/
theorem C4_flush_gated_by_max_witness :
    alwaysOkClient constClient ∧
    (CurlResumableStreambuf.mkStreambuf () (⟨"", 0⟩ :
        CurlResumableUploadSession) 262144).session = some ⟨"", 0⟩ ∧
    ((CurlResumableStreambuf.mkStreambuf () (⟨"", 0⟩ :
          CurlResumableUploadSession) 262144).pending.length <
        (CurlResumableStreambuf.mkStreambuf () (⟨"", 0⟩ :
          CurlResumableUploadSession) 262144).max_buffer_size →
      ((CurlResumableStreambuf.mkStreambuf () (⟨"", 0⟩ :
          CurlResumableUploadSession) 262144 :
            CurlResumableStreambuf Unit).sync constClient).1 =
        CurlResumableStreambuf.mkStreambuf () ⟨"", 0⟩ 262144) := by
  refine ⟨⟨fun _ _ => rfl, fun _ _ => rfl⟩, rfl, ?_⟩
  exact (C4_flush_gated_by_max constClient ⟨fun _ _ => rfl, fun _ _ => rfl⟩
    (CurlResumableStreambuf.mkStreambuf () ⟨"", 0⟩ 262144) ⟨"", 0⟩ rfl).1

/-- C7 counterexample: with a transport whose first wire call fails and
whose second succeeds, a bulk write of one quantum fails (eof returned),
yet the very next operation (`pubsync`) silently re-attempts the chunk
upload — a second `UploadChunk` call appears in the trace — and returns
success, not the cached error.  There is no `Failed` state. -/
theorem C7_error_not_cached :
    ((CurlResumableStreambuf.mkStreambuf 0 (⟨"", 0⟩ :
        CurlResumableUploadSession) 262144).xsputn failThenOkClient
      quantumZeros).2 = none ∧
    ((((CurlResumableStreambuf.mkStreambuf 0 (⟨"", 0⟩ :
        CurlResumableUploadSession) 262144).xsputn failThenOkClient
      quantumZeros).1.sync failThenOkClient).2 = true) ∧
    ((((CurlResumableStreambuf.mkStreambuf 0 (⟨"", 0⟩ :
        CurlResumableUploadSession) 262144).xsputn failThenOkClient
      quantumZeros).1.sync failThenOkClient).1.calls.length = 2) := by
  have hmk : (CurlResumableStreambuf.mkStreambuf 0 (⟨"", 0⟩ :
      CurlResumableUploadSession) 262144 : CurlResumableStreambuf Nat) =
      ⟨0, [], 262144, some ⟨"", 0⟩, ⟨400, "", []⟩, [], []⟩ := by
    simp [CurlResumableStreambuf.mkStreambuf,
      UploadChunkRequest.RoundUpToQuantum, UploadChunkRequest.kChunkSizeQuantum]
  have hcs : quantumZeros.length / UploadChunkRequest.kChunkSizeQuantum *
      UploadChunkRequest.kChunkSizeQuantum = 262144 := by
    rw [quantumZeros_length, kQ_eq]
  have htake : quantumZeros.take
      (quantumZeros.length / UploadChunkRequest.kChunkSizeQuantum *
        UploadChunkRequest.kChunkSizeQuantum) = quantumZeros := by
    rw [hcs, quantumZeros_take]
  have hdrop : quantumZeros.drop
      (quantumZeros.length / UploadChunkRequest.kChunkSizeQuantum *
        UploadChunkRequest.kChunkSizeQuantum) = [] := by
    rw [hcs, quantumZeros_drop]
  have hnlt : ¬ quantumZeros.length < 262144 := by
    rw [quantumZeros_length]
    omega
  have hpend1 : (⟨0, quantumZeros, 262144, some ⟨"", 0⟩, ⟨400, "", []⟩, [],
      []⟩ : CurlResumableStreambuf Nat).pending = quantumZeros := rfl
  have hflush1 : CurlResumableStreambuf.Flush failThenOkClient
      (⟨0, quantumZeros, 262144, some ⟨"", 0⟩, ⟨400, "", []⟩, [], []⟩ :
        CurlResumableStreambuf Nat) =
      (⟨1, quantumZeros, 262144, some ⟨"", 0⟩, ⟨400, "", []⟩,
          quantumZeros, [SessionCall.uploadChunk quantumZeros]⟩,
        .error ⟨StatusCode.kUnavailable, "transient failure"⟩) := by
    have h := CurlResumableStreambuf.Flush_fire_error failThenOkClient
      (⟨0, quantumZeros, 262144, some ⟨"", 0⟩, ⟨400, "", []⟩, [], []⟩ :
        CurlResumableStreambuf Nat) ⟨"", 0⟩ 1
      ⟨StatusCode.kUnavailable, "transient failure"⟩ rfl
      (by rw [hpend1]; exact hnlt)
      (by rw [hpend1, htake]; rfl)
    rw [h, hpend1, htake]
    rfl
  have hx : CurlResumableStreambuf.xsputn failThenOkClient
      (⟨0, [], 262144, some ⟨"", 0⟩, ⟨400, "", []⟩, [], []⟩ :
        CurlResumableStreambuf Nat) quantumZeros =
      (⟨1, quantumZeros, 262144, some ⟨"", 0⟩, ⟨400, "", []⟩,
          quantumZeros, [SessionCall.uploadChunk quantumZeros]⟩, none) :=
    CurlResumableStreambuf.xsputn_of_flush_error failThenOkClient _ _ _ _
      rfl hflush1
  have hpend2 : (⟨1, quantumZeros, 262144, some ⟨"", 0⟩, ⟨400, "", []⟩,
      quantumZeros, [SessionCall.uploadChunk quantumZeros]⟩ :
        CurlResumableStreambuf Nat).pending = quantumZeros := rfl
  have hflush2 : CurlResumableStreambuf.Flush failThenOkClient
      (⟨1, quantumZeros, 262144, some ⟨"", 0⟩, ⟨400, "", []⟩,
        quantumZeros, [SessionCall.uploadChunk quantumZeros]⟩ :
        CurlResumableStreambuf Nat) =
      (⟨2, [], 262144, some ⟨"", 0⟩, ⟨200, "", []⟩,
          quantumZeros ++ quantumZeros,
          [SessionCall.uploadChunk quantumZeros,
            SessionCall.uploadChunk quantumZeros]⟩,
        .ok ⟨200, "", []⟩) := by
    have h := CurlResumableStreambuf.Flush_fire_ok failThenOkClient
      (⟨1, quantumZeros, 262144, some ⟨"", 0⟩, ⟨400, "", []⟩,
        quantumZeros, [SessionCall.uploadChunk quantumZeros]⟩ :
        CurlResumableStreambuf Nat) ⟨"", 0⟩ 2 ⟨"", 0, ""⟩ rfl
      (by rw [hpend2]; exact hnlt)
      (by rw [hpend2, htake]; rfl)
    rw [h, hpend2, htake, hdrop]
    rfl
  have hsync : CurlResumableStreambuf.sync failThenOkClient
      (⟨1, quantumZeros, 262144, some ⟨"", 0⟩, ⟨400, "", []⟩,
        quantumZeros, [SessionCall.uploadChunk quantumZeros]⟩ :
        CurlResumableStreambuf Nat) =
      (⟨2, [], 262144, some ⟨"", 0⟩, ⟨200, "", []⟩,
          quantumZeros ++ quantumZeros,
          [SessionCall.uploadChunk quantumZeros,
            SessionCall.uploadChunk quantumZeros]⟩, true) :=
    CurlResumableStreambuf.sync_eq failThenOkClient _ _ _ hflush2
  have hpair : ((⟨1, quantumZeros, 262144, some ⟨"", 0⟩, ⟨400, "", []⟩,
      quantumZeros, [SessionCall.uploadChunk quantumZeros]⟩, none) :
        CurlResumableStreambuf Nat × Option Nat).1 =
      (⟨1, quantumZeros, 262144, some ⟨"", 0⟩, ⟨400, "", []⟩,
        quantumZeros, [SessionCall.uploadChunk quantumZeros]⟩ :
        CurlResumableStreambuf Nat) := rfl
  refine ⟨?_, ?_, ?_⟩
  · rw [hmk, hx]
  · rw [hmk, hx, hpair, hsync]
  · rw [hmk, hx, hpair, hsync]
    rfl

/-- C7 amended: an error during a chunk upload is returned from the
failing operation and leaves the pending bytes, the session state and the
cached `last_response_` unchanged (no partial success); but the stream
does not enter a terminal `Failed` state: the error is not cached and
subsequent operations re-attempt the upload of the same bytes (see the
accompanying counterexample). -/
theorem C7_failure_leaves_state {ω : Type} (client : RawClient ω)
    (s : CurlResumableStreambuf ω) (sess : CurlResumableUploadSession)
    (w' : ω) (st : Status) (hs : s.session = some sess)
    (hge : ¬ s.pending.length < s.max_buffer_size)
    (hc : client.uploadChunk s.world
        (UploadChunkRequest.nonFinal sess.session_id sess.next_expected
          (s.pending.take
            (s.pending.length / UploadChunkRequest.kChunkSizeQuantum *
              UploadChunkRequest.kChunkSizeQuantum))) = (w', .error st)) :
    (s.Flush client).2 = .error st ∧
    (s.Flush client).1.pending = s.pending ∧
    (s.Flush client).1.session = some sess ∧
    (s.Flush client).1.last_response = s.last_response := by
  rw [CurlResumableStreambuf.Flush_fire_error client s sess w' st hs hge hc]
  exact ⟨rfl, rfl, rfl, rfl⟩

/-- Witness for C7 amended: a one-byte buffer over a unit threshold, with
the transport that fails on its first call. -/
theorem C7_failure_leaves_state_witness :
    smallFailState.session = some ⟨"", 0⟩ ∧
    (¬ smallFailState.pending.length < smallFailState.max_buffer_size) ∧
    ((smallFailState.Flush failThenOkClient).2 =
      .error ⟨StatusCode.kUnavailable, "transient failure"⟩ ∧
    (smallFailState.Flush failThenOkClient).1.pending =
      smallFailState.pending ∧
    (smallFailState.Flush failThenOkClient).1.session = some ⟨"", 0⟩ ∧
    (smallFailState.Flush failThenOkClient).1.last_response =
      smallFailState.last_response) :=
  ⟨rfl, by decide,
    C7_failure_leaves_state failThenOkClient smallFailState ⟨"", 0⟩ 1
      ⟨StatusCode.kUnavailable, "transient failure"⟩ rfl (by decide) rfl⟩

@[simp] theorem uploadedConcat_nil : uploadedConcat [] = [] := rfl

@[simp] theorem uploadedConcat_cons (c : SessionCall) (cs : List SessionCall) :
    uploadedConcat (c :: cs) = c.buffer ++ uploadedConcat cs := by
  simp [uploadedConcat]

theorem sentConcat_cons_chunk (b : List Nat) (cs : List SessionCall) :
    sentConcat (SessionCall.uploadChunk b :: cs) = b ++ sentConcat cs := by
  simp [sentConcat, chunkBuffers]

theorem finalBuffers_cons_chunk (b : List Nat) (cs : List SessionCall) :
    finalBuffers (SessionCall.uploadChunk b :: cs) = finalBuffers cs := by
  simp [finalBuffers]

theorem finalBuffers_cons_final (b : List Nat) (z : Nat)
    (cs : List SessionCall) :
    finalBuffers (SessionCall.uploadFinalChunk b z :: cs) =
      b :: finalBuffers cs := by
  simp [finalBuffers]

/-- In a trace with no final calls yet, appending the one final call makes
the uploaded byte stream the chunk bytes followed by the final buffer. -/
theorem uploadedConcat_of_noFinal (cs : List SessionCall)
    (h : finalBuffers cs = []) (b : List Nat) (z : Nat) :
    uploadedConcat (cs ++ [SessionCall.uploadFinalChunk b z]) =
      sentConcat cs ++ b := by
  induction cs with
  | nil => simp [uploadedConcat, SessionCall.buffer, sentConcat, chunkBuffers]
  | cons c rest ih =>
    cases c with
    | uploadChunk a =>
      rw [finalBuffers_cons_chunk] at h
      rw [List.cons_append, uploadedConcat_cons, ih h,
        sentConcat_cons_chunk, List.append_assoc]
      rfl
    | uploadFinalChunk a z' =>
      rw [finalBuffers_cons_final] at h
      cases h

theorem quantumZeros_eq : quantumZeros = List.replicate 262144 0 := by
  rw [quantumZeros, kQ_eq]

theorem quantumZeros_cons :
    (0 : Nat) :: List.replicate 262143 0 = quantumZeros := by
  rw [quantumZeros_eq, show (262144 : Nat) = 262143 + 1 by norm_num]
  exact (List.replicate_succ ..).symm

theorem bigPayload_eq : bigPayload = List.replicate 524288 0 := by
  rw [bigPayload, kQ_eq]

theorem bigPayload_length : bigPayload.length = 524288 := by
  rw [bigPayload_eq, List.length_replicate]

theorem bigPayload_take : bigPayload.take 524288 = bigPayload := by
  rw [bigPayload_eq, List.take_replicate, Nat.min_self]

theorem bigPayload_drop : bigPayload.drop 524288 = [] := by
  rw [bigPayload_eq, List.drop_replicate, Nat.sub_self, List.replicate_zero]

/-- Flushing a full buffer against the faithful in-order server: the
whole-quantum portion is sent, the server's committed count and
`next_expected_` both advance by exactly that many bytes. -/
theorem Flush_fire_faithful (s : CurlResumableStreambuf Nat) (L : Nat)
    (hs : s.session = some ⟨"", L⟩) (hw : s.world = L)
    (hge : ¬ s.pending.length < s.max_buffer_size)
    (hq : UploadChunkRequest.kChunkSizeQuantum ≤ s.max_buffer_size) :
    s.Flush faithfulClient =
      ({ s with
          world := L + s.pending.length / UploadChunkRequest.kChunkSizeQuantum *
            UploadChunkRequest.kChunkSizeQuantum
          pending := s.pending.drop
            (s.pending.length / UploadChunkRequest.kChunkSizeQuantum *
              UploadChunkRequest.kChunkSizeQuantum)
          hashed := s.hashed ++ s.pending.take
            (s.pending.length / UploadChunkRequest.kChunkSizeQuantum *
              UploadChunkRequest.kChunkSizeQuantum)
          calls := s.calls ++ [SessionCall.uploadChunk (s.pending.take
            (s.pending.length / UploadChunkRequest.kChunkSizeQuantum *
              UploadChunkRequest.kChunkSizeQuantum))]
          session := some ⟨"",
            L + s.pending.length / UploadChunkRequest.kChunkSizeQuantum *
              UploadChunkRequest.kChunkSizeQuantum⟩
          last_response := ⟨200, "", []⟩ },
       .ok ⟨200, "", []⟩) := by
  have hn : UploadChunkRequest.kChunkSizeQuantum ≤ s.pending.length :=
    le_trans hq (Nat.le_of_not_lt hge)
  obtain ⟨hpos, hmod, hle⟩ := chunk_size_bounds s.pending.length hn
  have hqcs : UploadChunkRequest.kChunkSizeQuantum ≤
      s.pending.length / UploadChunkRequest.kChunkSizeQuantum *
        UploadChunkRequest.kChunkSizeQuantum := by
    have h1 : 1 ≤ s.pending.length / UploadChunkRequest.kChunkSizeQuantum :=
      (Nat.one_le_div_iff kQ_pos).mpr hn
    calc UploadChunkRequest.kChunkSizeQuantum
        = 1 * UploadChunkRequest.kChunkSizeQuantum := (one_mul _).symm
      _ ≤ _ := Nat.mul_le_mul_right _ h1
  have hlen : (s.pending.take
      (s.pending.length / UploadChunkRequest.kChunkSizeQuantum *
        UploadChunkRequest.kChunkSizeQuantum)).length =
      s.pending.length / UploadChunkRequest.kChunkSizeQuantum *
        UploadChunkRequest.kChunkSizeQuantum := by
    rw [List.length_take, Nat.min_eq_left hle]
  have hc : faithfulClient.uploadChunk s.world
      (UploadChunkRequest.nonFinal "" L (s.pending.take
        (s.pending.length / UploadChunkRequest.kChunkSizeQuantum *
          UploadChunkRequest.kChunkSizeQuantum))) =
      (L + s.pending.length / UploadChunkRequest.kChunkSizeQuantum *
          UploadChunkRequest.kChunkSizeQuantum,
        .ok (faithfulResponse
          (L + s.pending.length / UploadChunkRequest.kChunkSizeQuantum *
            UploadChunkRequest.kChunkSizeQuantum))) := by
    simp only [faithfulClient]
    rw [show (UploadChunkRequest.nonFinal "" L (s.pending.take
        (s.pending.length / UploadChunkRequest.kChunkSizeQuantum *
          UploadChunkRequest.kChunkSizeQuantum))).payload =
        s.pending.take
          (s.pending.length / UploadChunkRequest.kChunkSizeQuantum *
            UploadChunkRequest.kChunkSizeQuantum) from rfl]
    rw [hlen, hw]
  have h := CurlResumableStreambuf.Flush_fire_ok faithfulClient s ⟨"", L⟩
    (L + s.pending.length / UploadChunkRequest.kChunkSizeQuantum *
      UploadChunkRequest.kChunkSizeQuantum)
    (faithfulResponse
      (L + s.pending.length / UploadChunkRequest.kChunkSizeQuantum *
        UploadChunkRequest.kChunkSizeQuantum)) hs hge hc
  rw [h]
  have hge2 : 2 ≤ L + s.pending.length / UploadChunkRequest.kChunkSizeQuantum *
      UploadChunkRequest.kChunkSizeQuantum := by
    rw [kQ_eq] at hqcs ⊢
    omega
  have h0 : ¬ (L + s.pending.length / UploadChunkRequest.kChunkSizeQuantum *
      UploadChunkRequest.kChunkSizeQuantum = 0) := by
    rw [kQ_eq] at hge2 ⊢
    omega
  have h1 : ¬ (L + s.pending.length / UploadChunkRequest.kChunkSizeQuantum *
      UploadChunkRequest.kChunkSizeQuantum - 1 = 0) := by
    rw [kQ_eq] at hge2 ⊢
    omega
  have hcc : L + s.pending.length / UploadChunkRequest.kChunkSizeQuantum *
      UploadChunkRequest.kChunkSizeQuantum - 1 + 1 =
      L + s.pending.length / UploadChunkRequest.kChunkSizeQuantum *
        UploadChunkRequest.kChunkSizeQuantum := by
    rw [kQ_eq] at hge2 ⊢
    omega
  have hupd : CurlResumableUploadSession.Update ⟨"", L⟩
      (.ok (faithfulResponse
        (L + s.pending.length / UploadChunkRequest.kChunkSizeQuantum *
          UploadChunkRequest.kChunkSizeQuantum))) =
      ⟨"", L + s.pending.length / UploadChunkRequest.kChunkSizeQuantum *
        UploadChunkRequest.kChunkSizeQuantum⟩ := by
    simp [CurlResumableUploadSession.Update, faithfulResponse, h0, h1, hcc]
  rw [hupd]
  rfl

theorem faithful_alwaysOk : alwaysOkClient faithfulClient :=
  ⟨fun _ _ => rfl, fun _ _ => rfl⟩

theorem FaithfulInv_flush (W : List Nat) (s : CurlResumableStreambuf Nat)
    (hinv : FaithfulInv W s) : FaithfulInv W (s.Flush faithfulClient).1 := by
  obtain ⟨hs, hw, hconcat, hfb, hfs, hmul, hmax⟩ := hinv
  by_cases hlt : s.pending.length < s.max_buffer_size
  · rw [CurlResumableStreambuf.Flush_small faithfulClient s _ hs hlt]
    exact ⟨hs, hw, hconcat, hfb, hfs, hmul, hmax⟩
  · rw [Flush_fire_faithful s _ hs hw hlt hmax.ge]
    have hn : UploadChunkRequest.kChunkSizeQuantum ≤ s.pending.length :=
      le_trans hmax.ge (Nat.le_of_not_lt hlt)
    obtain ⟨hpos, hmod, hle⟩ := chunk_size_bounds s.pending.length hn
    have hlentake : (s.pending.take
        (s.pending.length / UploadChunkRequest.kChunkSizeQuantum *
          UploadChunkRequest.kChunkSizeQuantum)).length =
        s.pending.length / UploadChunkRequest.kChunkSizeQuantum *
          UploadChunkRequest.kChunkSizeQuantum := by
      rw [List.length_take, Nat.min_eq_left hle]
    refine ⟨?_, ?_, ?_, ?_, ?_, ?_, ?_⟩
    · simp [sentConcat_append_chunk, hlentake]
    · simp [sentConcat_append_chunk, hlentake]
    · simp only [sentConcat_append_chunk]
      simpa [List.append_assoc, List.take_append_drop] using hconcat
    · simp [hfb]
    · simp [hfs]
    · intro b hb
      simp only [chunkBuffers_append, chunkBuffers_chunk, List.mem_append,
        List.mem_singleton] at hb
      rcases hb with hb | rfl
      · exact hmul b hb
      · rw [hlentake]
        exact ⟨hpos, hmod⟩
    · simpa using hmax

theorem FaithfulInv_overflow (W : List Nat) (s : CurlResumableStreambuf Nat)
    (ch : Nat) (hinv : FaithfulInv W s) :
    FaithfulInv (W ++ [ch]) (s.overflow faithfulClient ch).1 := by
  have hopen : s.session.isSome = true := by rw [hinv.1]; rfl
  have hinv' := FaithfulInv_flush W s hinv
  rcases hf : s.Flush faithfulClient with ⟨s', st⟩
  rw [hf] at hinv'
  cases st with
  | error e =>
    have := CurlResumableStreambuf.Flush_statusOk faithfulClient
      faithful_alwaysOk s
    rw [hf] at this
    simp [statusOrOk] at this
  | ok resp =>
    rw [CurlResumableStreambuf.overflow_of_flush_ok faithfulClient s s' resp
      ch hopen hf]
    obtain ⟨h1, h2, h3, h4, h5, h6, h7⟩ := hinv'
    exact ⟨by simpa using h1, by simpa using h2,
      by simp [← List.append_assoc, h3], by simpa using h4, by simpa using h5,
      by simpa using h6, by simpa using h7⟩

theorem FaithfulInv_xsputn (W : List Nat) (s : CurlResumableStreambuf Nat)
    (bs : List Nat) (hinv : FaithfulInv W s) :
    FaithfulInv (W ++ bs) (s.xsputn faithfulClient bs).1 := by
  have hopen : s.session.isSome = true := by rw [hinv.1]; rfl
  obtain ⟨h1, h2, h3, h4, h5, h6, h7⟩ := hinv
  have hmid : FaithfulInv (W ++ bs) { s with pending := s.pending ++ bs } :=
    ⟨by simpa using h1, by simpa using h2, by simp [← List.append_assoc, h3],
      by simpa using h4, by simpa using h5, by simpa using h6,
      by simpa using h7⟩
  have hinv' := FaithfulInv_flush (W ++ bs) _ hmid
  rcases hf : CurlResumableStreambuf.Flush faithfulClient
      { s with pending := s.pending ++ bs } with ⟨s', st⟩
  rw [hf] at hinv'
  cases st with
  | error e =>
    have := CurlResumableStreambuf.Flush_statusOk faithfulClient
      faithful_alwaysOk { s with pending := s.pending ++ bs }
    rw [hf] at this
    simp [statusOrOk] at this
  | ok resp =>
    rw [CurlResumableStreambuf.xsputn_of_flush_ok faithfulClient s s' resp bs
      hopen hf]
    exact hinv'

theorem FaithfulInv_run (ops : List WriteOp) :
    ∀ (W : List Nat) (s : CurlResumableStreambuf Nat), FaithfulInv W s →
      FaithfulInv (W ++ writtenBytes ops) (runWrites faithfulClient s ops) := by
  induction ops with
  | nil => intro W s hinv; simpa using hinv
  | cons op rest ih =>
    intro W s hinv
    rw [runWrites_cons, writtenBytes_cons, ← List.append_assoc]
    apply ih
    cases op with
    | putc ch => exact FaithfulInv_overflow W s ch hinv
    | putn bs => exact FaithfulInv_xsputn W s bs hinv

theorem FaithfulInv_mk :
    FaithfulInv [] (CurlResumableStreambuf.mkStreambuf 0 ⟨"", 0⟩ 262144) := by
  refine ⟨rfl, rfl, rfl, rfl, rfl, ?_, ?_⟩
  · intro b hb
    simp [chunkBuffers, CurlResumableStreambuf.mkStreambuf] at hb
  · show UploadChunkRequest.RoundUpToQuantum 262144 =
      UploadChunkRequest.kChunkSizeQuantum
    rw [kQ_eq]
    norm_num [UploadChunkRequest.RoundUpToQuantum,
      UploadChunkRequest.kChunkSizeQuantum]

/-- Closing a faithful-server run: the uploaded byte stream equals the
bytes written, and the single final chunk declares exactly their count. -/
theorem faithful_close (W : List Nat) (s : CurlResumableStreambuf Nat)
    (hinv : FaithfulInv W s) :
    uploadedConcat (s.Close faithfulClient).1.calls = W ∧
    finalSizes (s.Close faithfulClient).1.calls = [W.length] ∧
    (finalBuffers (s.Close faithfulClient).1.calls).length = 1 := by
  have hinv' : FaithfulInv W (s.sync faithfulClient).1 := by
    rw [CurlResumableStreambuf.sync_fst]
    exact FaithfulInv_flush W s hinv
  obtain ⟨hs, hw, hconcat, hfb, hfs, hmul, hmax⟩ := hinv'
  have hcalls := (CurlResumableStreambuf.FlushFinal_calls faithfulClient
    (s.sync faithfulClient).1 _ hs).1
  rw [CurlResumableStreambuf.Close_eq]
  refine ⟨?_, ?_, ?_⟩
  · rw [hcalls, uploadedConcat_of_noFinal _ hfb]
    exact hconcat
  · rw [hcalls, finalSizes_append, hfs, finalSizes_final, List.nil_append]
    have h3 : (sentConcat (s.sync faithfulClient).1.calls).length +
        (s.sync faithfulClient).1.pending.length = W.length := by
      rw [← congrArg List.length hconcat, List.length_append]
    show [(sentConcat (s.sync faithfulClient).1.calls).length +
      (s.sync faithfulClient).1.pending.length] = [W.length]
    rw [h3]
  · rw [hcalls, finalBuffers_append, hfb, finalBuffers_final, List.nil_append]
    rfl

theorem writtenBytes_map_putc (p : List Nat) :
    writtenBytes (p.map WriteOp.putc) = p := by
  induction p with
  | nil => rfl
  | cons c cs ih => simp [writtenBytes_cons, WriteOp.bytes, ih]

theorem writtenBytes_putn (p : List Nat) :
    writtenBytes [WriteOp.putn p] = p := by
  simp [writtenBytes, WriteOp.bytes]

theorem faithful_finalState (ops : List WriteOp) :
    uploadedConcat (finalState faithfulClient
      (CurlResumableStreambuf.mkStreambuf 0 ⟨"", 0⟩ 262144) ops).calls =
      writtenBytes ops ∧
    finalSizes (finalState faithfulClient
      (CurlResumableStreambuf.mkStreambuf 0 ⟨"", 0⟩ 262144) ops).calls =
      [(writtenBytes ops).length] ∧
    (finalBuffers (finalState faithfulClient
      (CurlResumableStreambuf.mkStreambuf 0 ⟨"", 0⟩ 262144) ops).calls).length =
      1 := by
  have h1 := FaithfulInv_run ops [] _ FaithfulInv_mk
  rw [List.nil_append] at h1
  exact faithful_close (writtenBytes ops) _ h1

/-- C9 amended: byte-at-a-time and bulk writes of the same payload are not
call-for-call identical (see the counterexample: chunk boundaries differ),
but both upload exactly the payload's bytes in order — the concatenation
of all chunk buffers followed by the final chunk's buffer equals the
payload — both issue exactly one `UploadFinalChunk`, and against a server
that acknowledges exactly the bytes it received both declare the same
final total size `N`. -/
theorem C9_same_bytes_and_total (payload : List Nat) :
    uploadedConcat (finalState faithfulClient
      (CurlResumableStreambuf.mkStreambuf 0 ⟨"", 0⟩ 262144)
      (payload.map WriteOp.putc)).calls = payload ∧
    uploadedConcat (finalState faithfulClient
      (CurlResumableStreambuf.mkStreambuf 0 ⟨"", 0⟩ 262144)
      [WriteOp.putn payload]).calls = payload ∧
    finalSizes (finalState faithfulClient
      (CurlResumableStreambuf.mkStreambuf 0 ⟨"", 0⟩ 262144)
      (payload.map WriteOp.putc)).calls = [payload.length] ∧
    finalSizes (finalState faithfulClient
      (CurlResumableStreambuf.mkStreambuf 0 ⟨"", 0⟩ 262144)
      [WriteOp.putn payload]).calls = [payload.length] := by
  have hb := faithful_finalState (payload.map WriteOp.putc)
  have hk := faithful_finalState [WriteOp.putn payload]
  rw [writtenBytes_map_putc] at hb
  rw [writtenBytes_putn] at hk
  exact ⟨hb.1, hk.1, hb.2.1, hk.2.1⟩

/-- Writing characters one at a time while the buffer stays strictly below
the flush threshold only accumulates them in the put area: no session call
is made. -/
theorem runWrites_fill {ω : Type} (client : RawClient ω) (c : Nat) :
    ∀ (j : Nat) (s : CurlResumableStreambuf ω)
      (sess : CurlResumableUploadSession),
      s.session = some sess → s.pending.length + j ≤ s.max_buffer_size →
      runWrites client s (List.replicate j (WriteOp.putc c)) =
        { s with pending := s.pending ++ List.replicate j c } := by
  intro j
  induction j with
  | zero =>
    intro s sess hs hlen
    simp
  | succ j ih =>
    intro s sess hs hlen
    rw [List.replicate_succ, runWrites_cons]
    have hlt : s.pending.length < s.max_buffer_size := by omega
    have hov : applyWrite client s (WriteOp.putc c) =
        { s with pending := s.pending ++ [c] } := by
      show (s.overflow client c).1 = _
      rw [CurlResumableStreambuf.overflow_of_flush_ok client s s
        s.last_response c (by rw [hs]; rfl)
        (CurlResumableStreambuf.Flush_small client s sess hs hlt)]
    rw [hov]
    rw [ih { s with pending := s.pending ++ [c] } sess (by simpa using hs)
      (by simp; omega)]
    simp [List.append_assoc, List.replicate_succ]

theorem quantumZeros_cs : quantumZeros.length /
    UploadChunkRequest.kChunkSizeQuantum *
    UploadChunkRequest.kChunkSizeQuantum = 262144 := by
  rw [quantumZeros_length, kQ_eq]

theorem quantumZeros_take_cs : quantumZeros.take
    (quantumZeros.length / UploadChunkRequest.kChunkSizeQuantum *
      UploadChunkRequest.kChunkSizeQuantum) = quantumZeros := by
  rw [quantumZeros_cs, quantumZeros_take]

theorem quantumZeros_drop_cs : quantumZeros.drop
    (quantumZeros.length / UploadChunkRequest.kChunkSizeQuantum *
      UploadChunkRequest.kChunkSizeQuantum) = [] := by
  rw [quantumZeros_cs, quantumZeros_drop]

theorem bigPayload_cs : bigPayload.length /
    UploadChunkRequest.kChunkSizeQuantum *
    UploadChunkRequest.kChunkSizeQuantum = 524288 := by
  rw [bigPayload_length, kQ_eq]

theorem bigPayload_take_cs : bigPayload.take
    (bigPayload.length / UploadChunkRequest.kChunkSizeQuantum *
      UploadChunkRequest.kChunkSizeQuantum) = bigPayload := by
  rw [bigPayload_cs, bigPayload_take]

theorem bigPayload_drop_cs : bigPayload.drop
    (bigPayload.length / UploadChunkRequest.kChunkSizeQuantum *
      UploadChunkRequest.kChunkSizeQuantum) = [] := by
  rw [bigPayload_cs, bigPayload_drop]

theorem kQ_le_262144 : UploadChunkRequest.kChunkSizeQuantum ≤ 262144 :=
  le_of_eq kQ_eq

theorem runWrites_singleton {ω : Type} (client : RawClient ω)
    (s : CurlResumableStreambuf ω) (op : WriteOp) :
    runWrites client s [op] = applyWrite client s op := rfl

theorem applyWrite_putc {ω : Type} (client : RawClient ω)
    (s : CurlResumableStreambuf ω) (ch : Nat) :
    applyWrite client s (WriteOp.putc ch) = (s.overflow client ch).1 := rfl

theorem applyWrite_putn {ω : Type} (client : RawClient ω)
    (s : CurlResumableStreambuf ω) (bs : List Nat) :
    applyWrite client s (WriteOp.putn bs) = (s.xsputn client bs).1 := rfl

theorem finalState_eq {ω : Type} (client : RawClient ω)
    (s : CurlResumableStreambuf ω) (ops : List WriteOp) :
    finalState client s ops = ((runWrites client s ops).Close client).1 := rfl

/-- C9 counterexample: for a two-quantum payload written against the
faithful server with a one-quantum buffer threshold, byte-at-a-time
writing issues two one-quantum `UploadChunk` calls while a single bulk
write issues one two-quantum `UploadChunk` call — the call sequences are
not identical. -/
theorem C9_not_identical_call_sequences :
    (finalState faithfulClient
      (CurlResumableStreambuf.mkStreambuf 0 ⟨"", 0⟩ 262144)
      (bigPayload.map WriteOp.putc)).calls ≠
    (finalState faithfulClient
      (CurlResumableStreambuf.mkStreambuf 0 ⟨"", 0⟩ 262144)
      [WriteOp.putn bigPayload]).calls := by
  have hmk : (CurlResumableStreambuf.mkStreambuf 0 (⟨"", 0⟩ :
      CurlResumableUploadSession) 262144 : CurlResumableStreambuf Nat) =
      ⟨0, [], 262144, some ⟨"", 0⟩, ⟨400, "", []⟩, [], []⟩ := by
    simp [CurlResumableStreambuf.mkStreambuf,
      UploadChunkRequest.RoundUpToQuantum, UploadChunkRequest.kChunkSizeQuantum]
  have hops : bigPayload.map WriteOp.putc =
      List.replicate 262144 (WriteOp.putc 0) ++
        ([WriteOp.putc 0] ++ List.replicate 262143 (WriteOp.putc 0)) := by
    rw [bigPayload_eq, List.map_replicate, ← List.replicate_one,
      ← List.replicate_add, ← List.replicate_add]
  -- Phase 1: the first quantum of characters only fills the buffer.
  have hph1 : runWrites faithfulClient
      (⟨0, [], 262144, some ⟨"", 0⟩, ⟨400, "", []⟩, [], []⟩ :
        CurlResumableStreambuf Nat)
      (List.replicate 262144 (WriteOp.putc 0)) =
      ⟨0, quantumZeros, 262144, some ⟨"", 0⟩, ⟨400, "", []⟩, [], []⟩ := by
    rw [runWrites_fill faithfulClient 0 262144 _ ⟨"", 0⟩ rfl (by decide)]
    rfl
  -- Phase 2: the next character fires a one-quantum chunk upload.
  have hgeA : ¬ (⟨0, quantumZeros, 262144, some ⟨"", 0⟩, ⟨400, "", []⟩, [],
      []⟩ : CurlResumableStreambuf Nat).pending.length <
      (⟨0, quantumZeros, 262144, some ⟨"", 0⟩, ⟨400, "", []⟩, [], []⟩ :
        CurlResumableStreambuf Nat).max_buffer_size := by
    show ¬ quantumZeros.length < 262144
    rw [quantumZeros_length]
    omega
  have hflushA : CurlResumableStreambuf.Flush faithfulClient
      (⟨0, quantumZeros, 262144, some ⟨"", 0⟩, ⟨400, "", []⟩, [], []⟩ :
        CurlResumableStreambuf Nat) =
      (⟨262144, [], 262144, some ⟨"", 262144⟩, ⟨200, "", []⟩, quantumZeros,
          [SessionCall.uploadChunk quantumZeros]⟩, .ok ⟨200, "", []⟩) := by
    rw [Flush_fire_faithful _ 0 rfl rfl hgeA kQ_le_262144,
      (rfl : (⟨0, quantumZeros, 262144, some ⟨"", 0⟩, ⟨400, "", []⟩, [],
        []⟩ : CurlResumableStreambuf Nat).pending = quantumZeros),
      quantumZeros_take_cs, quantumZeros_drop_cs, quantumZeros_cs]
    rfl
  have hph2 : runWrites faithfulClient
      (⟨0, quantumZeros, 262144, some ⟨"", 0⟩, ⟨400, "", []⟩, [], []⟩ :
        CurlResumableStreambuf Nat) [WriteOp.putc 0] =
      ⟨262144, [0], 262144, some ⟨"", 262144⟩, ⟨200, "", []⟩, quantumZeros,
        [SessionCall.uploadChunk quantumZeros]⟩ := by
    rw [runWrites_singleton, applyWrite_putc,
      CurlResumableStreambuf.overflow_of_flush_ok faithfulClient
        (⟨0, quantumZeros, 262144, some ⟨"", 0⟩, ⟨400, "", []⟩, [], []⟩ :
          CurlResumableStreambuf Nat)
        (⟨262144, [], 262144, some ⟨"", 262144⟩, ⟨200, "", []⟩, quantumZeros,
          [SessionCall.uploadChunk quantumZeros]⟩ : CurlResumableStreambuf Nat)
        ⟨200, "", []⟩ 0 rfl hflushA]
    rfl
  -- Phase 3: the remaining characters fill the buffer to a quantum again.
  have hph3 : runWrites faithfulClient
      (⟨262144, [0], 262144, some ⟨"", 262144⟩, ⟨200, "", []⟩, quantumZeros,
        [SessionCall.uploadChunk quantumZeros]⟩ : CurlResumableStreambuf Nat)
      (List.replicate 262143 (WriteOp.putc 0)) =
      ⟨262144, quantumZeros, 262144, some ⟨"", 262144⟩, ⟨200, "", []⟩,
        quantumZeros, [SessionCall.uploadChunk quantumZeros]⟩ := by
    rw [runWrites_fill faithfulClient 0 262143 _ ⟨"", 262144⟩ rfl (by decide)]
    rfl
  have hby : runWrites faithfulClient
      (CurlResumableStreambuf.mkStreambuf 0 ⟨"", 0⟩ 262144)
      (bigPayload.map WriteOp.putc) =
      ⟨262144, quantumZeros, 262144, some ⟨"", 262144⟩, ⟨200, "", []⟩,
        quantumZeros, [SessionCall.uploadChunk quantumZeros]⟩ := by
    rw [hmk, hops, runWrites_append, runWrites_append, hph1, hph2, hph3]
  -- Closing the byte-at-a-time run: a second one-quantum chunk, then the
  -- final chunk.
  have hgeC : ¬ (⟨262144, quantumZeros, 262144, some ⟨"", 262144⟩,
      ⟨200, "", []⟩, quantumZeros, [SessionCall.uploadChunk quantumZeros]⟩ :
        CurlResumableStreambuf Nat).pending.length <
      (⟨262144, quantumZeros, 262144, some ⟨"", 262144⟩, ⟨200, "", []⟩,
        quantumZeros, [SessionCall.uploadChunk quantumZeros]⟩ :
          CurlResumableStreambuf Nat).max_buffer_size := by
    show ¬ quantumZeros.length < 262144
    rw [quantumZeros_length]
    omega
  have hflushC : CurlResumableStreambuf.Flush faithfulClient
      (⟨262144, quantumZeros, 262144, some ⟨"", 262144⟩, ⟨200, "", []⟩,
        quantumZeros, [SessionCall.uploadChunk quantumZeros]⟩ :
          CurlResumableStreambuf Nat) =
      (⟨524288, [], 262144, some ⟨"", 524288⟩, ⟨200, "", []⟩,
          quantumZeros ++ quantumZeros,
          [SessionCall.uploadChunk quantumZeros,
            SessionCall.uploadChunk quantumZeros]⟩, .ok ⟨200, "", []⟩) := by
    rw [Flush_fire_faithful _ 262144 rfl rfl hgeC kQ_le_262144,
      (rfl : (⟨262144, quantumZeros, 262144, some ⟨"", 262144⟩,
        ⟨200, "", []⟩, quantumZeros,
        [SessionCall.uploadChunk quantumZeros]⟩ :
          CurlResumableStreambuf Nat).pending = quantumZeros),
      quantumZeros_take_cs, quantumZeros_drop_cs, quantumZeros_cs]
    rfl
  have hpairC : ((⟨524288, [], 262144, some ⟨"", 524288⟩, ⟨200, "", []⟩,
      quantumZeros ++ quantumZeros,
      [SessionCall.uploadChunk quantumZeros,
        SessionCall.uploadChunk quantumZeros]⟩,
      Except.ok ⟨200, "", []⟩) :
        CurlResumableStreambuf Nat × StatusOr HttpResponse).1 =
      ⟨524288, [], 262144, some ⟨"", 524288⟩, ⟨200, "", []⟩,
        quantumZeros ++ quantumZeros,
        [SessionCall.uploadChunk quantumZeros,
          SessionCall.uploadChunk quantumZeros]⟩ := rfl
  have hclose_by : ((⟨262144, quantumZeros, 262144, some ⟨"", 262144⟩,
      ⟨200, "", []⟩, quantumZeros,
      [SessionCall.uploadChunk quantumZeros]⟩ :
        CurlResumableStreambuf Nat).Close faithfulClient).1.calls =
      [SessionCall.uploadChunk quantumZeros,
        SessionCall.uploadChunk quantumZeros,
        SessionCall.uploadFinalChunk [] (524288 + 0)] := by
    rw [CurlResumableStreambuf.Close_eq, CurlResumableStreambuf.sync_fst,
      hflushC, hpairC,
      (CurlResumableStreambuf.FlushFinal_calls faithfulClient
        (⟨524288, [], 262144, some ⟨"", 524288⟩, ⟨200, "", []⟩,
          quantumZeros ++ quantumZeros,
          [SessionCall.uploadChunk quantumZeros,
            SessionCall.uploadChunk quantumZeros]⟩ :
              CurlResumableStreambuf Nat)
        ⟨"", 524288⟩ rfl).1]
    rfl
  -- The bulk run: one two-quantum chunk, then the final chunk.
  have hgeM : ¬ (⟨0, bigPayload, 262144, some ⟨"", 0⟩, ⟨400, "", []⟩, [],
      []⟩ : CurlResumableStreambuf Nat).pending.length <
      (⟨0, bigPayload, 262144, some ⟨"", 0⟩, ⟨400, "", []⟩, [], []⟩ :
        CurlResumableStreambuf Nat).max_buffer_size := by
    show ¬ bigPayload.length < 262144
    rw [bigPayload_length]
    omega
  have hflushM : CurlResumableStreambuf.Flush faithfulClient
      (⟨0, bigPayload, 262144, some ⟨"", 0⟩, ⟨400, "", []⟩, [], []⟩ :
        CurlResumableStreambuf Nat) =
      (⟨524288, [], 262144, some ⟨"", 524288⟩, ⟨200, "", []⟩, bigPayload,
          [SessionCall.uploadChunk bigPayload]⟩, .ok ⟨200, "", []⟩) := by
    rw [Flush_fire_faithful _ 0 rfl rfl hgeM kQ_le_262144,
      (rfl : (⟨0, bigPayload, 262144, some ⟨"", 0⟩, ⟨400, "", []⟩, [],
        []⟩ : CurlResumableStreambuf Nat).pending = bigPayload),
      bigPayload_take_cs, bigPayload_drop_cs, bigPayload_cs]
    rfl
  have hxM : CurlResumableStreambuf.xsputn faithfulClient
      (⟨0, [], 262144, some ⟨"", 0⟩, ⟨400, "", []⟩, [], []⟩ :
        CurlResumableStreambuf Nat) bigPayload =
      (⟨524288, [], 262144, some ⟨"", 524288⟩, ⟨200, "", []⟩, bigPayload,
        [SessionCall.uploadChunk bigPayload]⟩, some bigPayload.length) :=
    CurlResumableStreambuf.xsputn_of_flush_ok faithfulClient _ _ _ _
      rfl hflushM
  have hbulk : runWrites faithfulClient
      (CurlResumableStreambuf.mkStreambuf 0 ⟨"", 0⟩ 262144)
      [WriteOp.putn bigPayload] =
      ⟨524288, [], 262144, some ⟨"", 524288⟩, ⟨200, "", []⟩, bigPayload,
        [SessionCall.uploadChunk bigPayload]⟩ := by
    rw [hmk, runWrites_singleton, applyWrite_putn, hxM]
  have hflushE : CurlResumableStreambuf.Flush faithfulClient
      (⟨524288, [], 262144, some ⟨"", 524288⟩, ⟨200, "", []⟩, bigPayload,
        [SessionCall.uploadChunk bigPayload]⟩ : CurlResumableStreambuf Nat) =
      (⟨524288, [], 262144, some ⟨"", 524288⟩, ⟨200, "", []⟩, bigPayload,
          [SessionCall.uploadChunk bigPayload]⟩, .ok ⟨200, "", []⟩) :=
    CurlResumableStreambuf.Flush_small faithfulClient _ ⟨"", 524288⟩ rfl
      (by decide)
  have hpairE : ((⟨524288, [], 262144, some ⟨"", 524288⟩, ⟨200, "", []⟩,
      bigPayload, [SessionCall.uploadChunk bigPayload]⟩,
      Except.ok ⟨200, "", []⟩) :
        CurlResumableStreambuf Nat × StatusOr HttpResponse).1 =
      ⟨524288, [], 262144, some ⟨"", 524288⟩, ⟨200, "", []⟩, bigPayload,
        [SessionCall.uploadChunk bigPayload]⟩ := rfl
  have hclose_bulk : ((⟨524288, [], 262144, some ⟨"", 524288⟩,
      ⟨200, "", []⟩, bigPayload, [SessionCall.uploadChunk bigPayload]⟩ :
        CurlResumableStreambuf Nat).Close faithfulClient).1.calls =
      [SessionCall.uploadChunk bigPayload,
        SessionCall.uploadFinalChunk [] (524288 + 0)] := by
    rw [CurlResumableStreambuf.Close_eq, CurlResumableStreambuf.sync_fst,
      hflushE, hpairE,
      (CurlResumableStreambuf.FlushFinal_calls faithfulClient
        (⟨524288, [], 262144, some ⟨"", 524288⟩, ⟨200, "", []⟩, bigPayload,
          [SessionCall.uploadChunk bigPayload]⟩ : CurlResumableStreambuf Nat)
        ⟨"", 524288⟩ rfl).1]
    rfl
  intro h
  rw [finalState_eq, finalState_eq, hby, hbulk, hclose_by, hclose_bulk] at h
  have hlen := congrArg List.length h
  simp at hlen

/-- Witness for C10: the empty-payload request at `range_begin = 0` whose
`range_end()` wraps to `2 ^ 64 - 1`. -/
theorem C10_range_end_wrap_witness :
    (UploadChunkRequest.nonFinal "url" 0 []).range_begin < 2 ^ 64 ∧
    (UploadChunkRequest.nonFinal "url" 0 []).payload = [] ∧
    ((UploadChunkRequest.nonFinal "url" 0 []).range_end =
        ((UploadChunkRequest.nonFinal "url" 0 []).range_begin + 2 ^ 64 - 1) %
          2 ^ 64 ∧
      ((UploadChunkRequest.nonFinal "url" 0 []).range_begin = 0 →
        (UploadChunkRequest.nonFinal "url" 0 []).range_end = 2 ^ 64 - 1)) :=
  ⟨by norm_num [UploadChunkRequest.nonFinal], rfl,
    C10_range_end_wrap (UploadChunkRequest.nonFinal "url" 0 [])
      (by norm_num [UploadChunkRequest.nonFinal]) rfl⟩

end GCS
